import Mathlib

/-!
# Verification of the torrent-TV reconciliation scripts

A shallow embedding, in Lean 4, of the core logic of the repository's
Python scripts, together with proofs about the embedded definitions:

* `BuildCatalog` — the merge helpers and catalog-building loop of
  `qBittorrent/build_catalog.py` (hash normalisation, the `latest`
  watermark, idempotence of re-merging the same history events).
* `RelocatedTorrent` — the plan/apply flow of
  `qBittorrent/relocated-torrent.py` (dry-run gate, target-folder
  resolution, per-action results and the call trace to qBittorrent).
* `RadarrHistory` — the retry loop of
  `Radarr/radarr_history_export.py` (`request_with_retry`).
* `RadarrImport` — the multi-tier torrent matcher of
  `Radarr/radar_movies_import.py` (save-path / name / file-list tiers
  and hash deduplication).

Python-level conventions are modelled explicitly: dictionary keys that
may be absent become `Option`, `x or y` on strings becomes a
truthiness-aware choice, string methods are reimplemented over
character lists so the kernel can evaluate them, and
`pathlib.PurePosixPath` string normalisation is reimplemented over
lists of path components.  The file is laid out with all definitions
first, then the proof development, then one theorem per audited claim.
-/

namespace Py

/-- Python truthiness of an optional string: `None` and `""` are falsy. -/
def truthyS : Option String → Bool
  | none => false
  | some s => s ≠ ""

/-- Python `a or b` on optional strings: keep `a` when truthy, else `b`. -/
def orS (a b : Option String) : Option String :=
  if truthyS a then a else b

/-- Python `a or "dflt"`-style coalescing of an optional string chain:
the first truthy element, or the default. -/
def firstTruthyD (l : List (Option String)) (dflt : String) : String :=
  match l with
  | [] => dflt
  | a :: rest => if truthyS a then a.getD dflt else firstTruthyD rest dflt

/-- The first truthy optional string of a chain, or the last element of
the chain itself (Python `a or b or c` returns the last value, truthy
or not, when all earlier ones are falsy). -/
def firstTruthyO : List (Option String) → Option String
  | [] => none
  | [a] => a
  | a :: rest => if truthyS a then a else firstTruthyO rest

/-- `dict.setdefault`: keep the stored value if the key is present,
otherwise store (and return) the default. -/
def setdefault {α : Type} (cur : Option α) (dflt : α) : Option α :=
  match cur with
  | none => some dflt
  | some v => some v

/-- Python truthiness of an optional integer (`None` and `0` are falsy). -/
def truthyI : Option Int → Bool
  | none => false
  | some n => n ≠ 0

/-- `str.lower()` (ASCII), over the character list so that the kernel
can evaluate it. -/
def lower (s : String) : String := String.mk (s.data.map Char.toLower)

/-- `str.upper()` (ASCII). -/
def upper (s : String) : String := String.mk (s.data.map Char.toUpper)

/-- `str.strip()`: drop whitespace from both ends. -/
def strip (s : String) : String :=
  String.mk (((s.data.dropWhile Char.isWhitespace).reverse.dropWhile Char.isWhitespace).reverse)

/-- `str.endswith(suffix)`. -/
def endsWithS (s suffix : String) : Bool := suffix.data.isSuffixOf s.data

/-- `str.startswith(p)`. -/
def startsWithS (s p : String) : Bool := p.data.isPrefixOf s.data

/-- Worker for `split`, with an explicit fuel bound (one unit per
consumed character, so `length + 1` suffices) to keep the recursion
structural and kernel-evaluable. -/
def splitGo (sep : List Char) : Nat → List Char → List Char → List (List Char)
  | 0, rem, acc => [acc.reverse ++ rem]
  | fuel + 1, rem, acc =>
    match rem with
    | [] => [acc.reverse]
    | c :: rest =>
      if sep.isPrefixOf (c :: rest) then
        acc.reverse :: splitGo sep fuel (List.drop sep.length (c :: rest)) []
      else splitGo sep fuel rest (c :: acc)

/-- `str.split(sep)` for a non-empty separator (the scripts never split
on an empty one; mirroring `String.splitOn`, an empty separator returns
the string whole). -/
def split (s sep : String) : List String :=
  if sep = "" then [s]
  else (splitGo sep.data (s.data.length + 1) s.data []).map String.mk

/-- Substring containment, Python's `needle in hay` on strings
(the empty needle is contained in everything). -/
def containsSub (hay needle : String) : Bool :=
  needle = "" || (split hay needle).length ≥ 2

end Py

namespace PyPath

/-- Split a POSIX path string into its root (`""`, `"/"` or `"//"` —
`pathlib` keeps exactly two leading slashes as a distinct root) and its
list of components, dropping empty components and `"."` as
`pathlib.PurePosixPath` does. -/
def parse (s : String) : String × List String :=
  let root :=
    if Py.startsWithS s "///" then "/"
    else if Py.startsWithS s "//" then "//"
    else if Py.startsWithS s "/" then "/"
    else ""
  let parts := (Py.split s "/").filter (fun c => c ≠ "" && c ≠ ".")
  (root, parts)

/-- Render a parsed path back to a string, as `str(Path(...))` does:
an empty relative path prints as `"."`. -/
def render (root : String) (parts : List String) : String :=
  match parts with
  | [] => if root = "" then "." else root
  | _ => root ++ String.intercalate "/" parts

/-- `str(pathlib.Path(s))`: parse and re-render (collapses duplicate
separators, drops `"."` components and trailing slashes). -/
def pathStr (s : String) : String :=
  let (root, parts) := parse s
  render root parts

/-- `str(pathlib.Path(s).parent)`: drop the final component; the parent
of a root or of an empty relative path is itself. -/
def parentStr (s : String) : String :=
  let (root, parts) := parse s
  render root parts.dropLast

end PyPath

/-!
## `qBittorrent/build_catalog.py` — merge helpers and catalog build

Timestamps: the script stores `max_event_at` as an ISO string and reads
it back through `parse_dt`, which is an order-preserving round trip on
the stored values; an event's `event_dt` is `parse_dt(it.get("date"))`.
We model the totally ordered time line of `datetime` values as `Int`,
carrying each event's already-parsed timestamp, with the epoch default
`parse_dt("1970-01-01T00:00:00Z")` as `0`.
-/

namespace BuildCatalog

/-- Epoch default used when an entry has no `max_event_at` key yet
(`entry.get("max_event_at") or "1970-01-01T00:00:00Z"`). -/
def epoch1970 : Int := 0

/-- One catalog entry (a JSON object). A field is `none` when the key
is absent from the object; `season`/`episode` and `latest` can also be
present with a JSON `null` value, hence the nested `Option`. -/
structure Entry where
  title : Option String := none
  season : Option (Option Int) := none
  episode : Option (Option Int) := none
  year : Option Int := none
  candidates : Option (List String) := none
  removed : Option (List String) := none
  latest : Option (Option String) := none
  max_event_at : Option Int := none
  deriving Repr, DecidableEq

/-- The fresh entry `{}` created by `setdefault(key, {})`. -/
def emptyEntry : Entry := {}

/-- `merge_episode(entry, add_hash, event_dt, title, season, epnum)`. -/
def merge_episode (entry : Entry) (add_hash : Option String) (event_dt : Int)
    (title : Option String) (season : Option Int) (epnum : Option Int) : Entry :=
  let e := { entry with
    season := Py.setdefault entry.season season
    episode := Py.setdefault entry.episode epnum }
  let e := if Py.truthyS title then { e with title := Py.setdefault e.title (title.getD "") } else e
  let e := { e with
    candidates := Py.setdefault e.candidates []
    removed := Py.setdefault e.removed []
    latest := Py.setdefault e.latest none }
  let cur := Py.strip (Py.lower (add_hash.getD ""))
  let cands := e.candidates.getD []
  let e := if cur ≠ "" ∧ cur ∉ cands then
      { e with candidates := some (cands ++ [cur]) } else e
  let max_prev := (e.max_event_at).getD epoch1970
  if event_dt > max_prev then
    { e with
      max_event_at := some event_dt
      latest := some (if cur ≠ "" then some cur else (e.latest.getD none)) }
  else e

/-- `merge_movie(entry, add_hash, event_dt, title, year)`. -/
def merge_movie (entry : Entry) (add_hash : Option String) (event_dt : Int)
    (title : Option String) (year : Option Int) : Entry :=
  let e := if Py.truthyS title then { entry with title := Py.setdefault entry.title (title.getD "") } else entry
  let e := if Py.truthyI year then { e with year := Py.setdefault e.year (year.getD 0) } else e
  let e := { e with
    candidates := Py.setdefault e.candidates []
    removed := Py.setdefault e.removed []
    latest := Py.setdefault e.latest none }
  let cur := Py.strip (Py.lower (add_hash.getD ""))
  let cands := e.candidates.getD []
  let e := if cur ≠ "" ∧ cur ∉ cands then
      { e with candidates := some (cands ++ [cur]) } else e
  let max_prev := (e.max_event_at).getD epoch1970
  if event_dt > max_prev then
    { e with
      max_event_at := some event_dt
      latest := some (if cur ≠ "" then some cur else (e.latest.getD none)) }
  else e

/-- `is_rel_sonarr(ev)`. -/
def is_rel_sonarr (ev : Option String) : Bool :=
  Py.lower (ev.getD "") ∈ ["grabbed", "grab", "download", "downloadimported",
    "episodefileimported", "upgrade", "downloadfolderimported"]

/-- `is_rel_radarr(ev)`. -/
def is_rel_radarr (ev : Option String) : Bool :=
  Py.lower (ev.getD "") ∈ ["grabbed", "grab", "download", "moviefileimported",
    "downloadfolderimported", "upgrade"]

/-- The `movie` object attached to a Radarr history event
(`includeMovie=true`). -/
structure MovieObj where
  id : Option Int := none
  title : Option String := none
  year : Option Int := none
  deriving Repr, DecidableEq

/-- One raw Radarr history event, with its `date` field already put
through `parse_dt` (see the section comment on timestamps). -/
structure RadarrEvent where
  eventType : Option String := none
  downloadId : Option String := none
  movie : Option MovieObj := none
  movieId : Option Int := none
  date : Int := 0
  deriving Repr, DecidableEq

/-- The `episode` object attached to a Sonarr history event. -/
structure EpisodeObj where
  id : Option Int := none
  title : Option String := none
  seasonNumber : Option Int := none
  episodeNumber : Option Int := none
  deriving Repr, DecidableEq

/-- The `series` object attached to a Sonarr history event. -/
structure SeriesObj where
  title : Option String := none
  deriving Repr, DecidableEq

/-- One raw Sonarr history event, `date` already parsed. -/
structure SonarrEvent where
  eventType : Option String := none
  downloadId : Option String := none
  seriesId : Option Int := none
  series : Option SeriesObj := none
  episode : Option EpisodeObj := none
  episodeId : Option Int := none
  date : Int := 0
  deriving Repr, DecidableEq

/-- A Python `dict` as an insertion-ordered association list: lookup of
a key (first occurrence). -/
def dlookup {α : Type} (d : List (String × α)) (k : String) : Option α :=
  (d.find? (fun p => p.1 == k)).map (fun p => p.2)

/-- `d.setdefault(k, dflt)` followed by an in-place mutation `f` of the
entry stored at `k`: updates the first occurrence in place, or appends
`(k, f dflt)` when the key is absent (Python dicts keep insertion
order). -/
def dupdate {α : Type} (d : List (String × α)) (k : String) (dflt : α) (f : α → α) :
    List (String × α) :=
  match d with
  | [] => [(k, f dflt)]
  | (k', v) :: rest =>
    if k' = k then (k', f v) :: rest else (k', v) :: dupdate rest k dflt f

/-- The `sonarr` namespace stores, per series id, the series title and a
dict of per-episode entries (`{"seriesTitle": ..., "episodes": {}}`). -/
structure SeriesEntry where
  seriesTitle : Option String := none
  episodes : List (String × Entry) := []
  deriving Repr, DecidableEq

/-- One iteration of the Radarr scan loop of `build_catalog`: relevance
filter, `qb_only` filter, movie-id resolution, then `merge_movie` into
`catalog["radarr"]`. -/
def radarrStep (qbOnly : Bool) (qbHashes : List String)
    (cat : List (String × Entry)) (it : RadarrEvent) : List (String × Entry) :=
  if ¬ is_rel_radarr it.eventType then cat else
  let dl := Py.strip (Py.lower (it.downloadId.getD ""))
  if qbOnly ∧ (dl = "" ∨ dl ∉ qbHashes) then cat else
  let movie := it.movie.getD {}
  let mid := if Py.truthyI movie.id then movie.id else it.movieId
  if ¬ Py.truthyI mid then cat else
  dupdate cat (toString (mid.getD 0)) emptyEntry
    (fun e => merge_movie e (some dl) it.date movie.title movie.year)

/-- One iteration of the Sonarr scan loop of `build_catalog`: relevance
filter, `qb_only` filter, series/episode-id resolution, then
`merge_episode` into `catalog["sonarr"][seriesId]["episodes"]`. -/
def sonarrStep (qbOnly : Bool) (qbHashes : List String)
    (cat : List (String × SeriesEntry)) (it : SonarrEvent) : List (String × SeriesEntry) :=
  if ¬ is_rel_sonarr it.eventType then cat else
  let dl := Py.strip (Py.lower (it.downloadId.getD ""))
  if qbOnly ∧ (dl = "" ∨ dl ∉ qbHashes) then cat else
  let series := it.series.getD {}
  let ep := it.episode.getD {}
  let eid := if Py.truthyI ep.id then ep.id else it.episodeId
  if ¬ (Py.truthyI it.seriesId ∧ Py.truthyI eid) then cat else
  let mergeEp := fun (e : Entry) =>
    merge_episode e (some dl) it.date ep.title ep.seasonNumber ep.episodeNumber
  dupdate cat (toString (it.seriesId.getD 0))
    { seriesTitle := series.title, episodes := [] }
    (fun se => { se with episodes := dupdate se.episodes (toString (eid.getD 0)) emptyEntry mergeEp })

/-- Merging one batch of Radarr history events into the `radarr`
namespace (the inner loop over `recs`). -/
def radarrMergeAll (qbOnly : Bool) (qbHashes : List String)
    (cat : List (String × Entry)) (evs : List RadarrEvent) : List (String × Entry) :=
  evs.foldl (radarrStep qbOnly qbHashes) cat

/-- Merging one batch of Sonarr history events into the `sonarr`
namespace. -/
def sonarrMergeAll (qbOnly : Bool) (qbHashes : List String)
    (cat : List (String × SeriesEntry)) (evs : List SonarrEvent) : List (String × SeriesEntry) :=
  evs.foldl (sonarrStep qbOnly qbHashes) cat

/-- The normalised form `(add_hash or "").lower().strip()` of a hash. -/
def normH (h : Option String) : String := Py.strip (Py.lower (h.getD ""))

/-- The watermark the merge helpers compare against:
`parse_dt(entry.get("max_event_at") or "1970-01-01T00:00:00Z")`. -/
def maxRead (e : Entry) : Int := e.max_event_at.getD epoch1970

/-- The entry's candidate list (empty when the key is absent). -/
def candList (e : Entry) : List String := e.candidates.getD []

/-- The entry's `latest` value (`None` when the key is absent). -/
def latestVal (e : Entry) : Option String := e.latest.getD none

/-- An event is *absorbed* in an entry when re-merging it can change
nothing: the descriptive keys it would set are set, its normalised hash
(when non-empty) is already a candidate, and its timestamp does not
beat the stored watermark. -/
def absorbedMovie (e : Entry) (h : Option String) (dt : Int)
    (t : Option String) (y : Option Int) : Prop :=
  (Py.truthyS t = true → e.title.isSome = true) ∧
  (Py.truthyI y = true → e.year.isSome = true) ∧
  e.candidates.isSome = true ∧ e.removed.isSome = true ∧ e.latest.isSome = true ∧
  (normH h ≠ "" → normH h ∈ candList e) ∧
  dt ≤ maxRead e

/-- Absorption for `merge_episode` (season/episode keys are set
unconditionally by the merge, so absorption requires them present). -/
def absorbedEpisode (e : Entry) (h : Option String) (dt : Int)
    (t : Option String) : Prop :=
  (Py.truthyS t = true → e.title.isSome = true) ∧
  e.season.isSome = true ∧ e.episode.isSome = true ∧
  e.candidates.isSome = true ∧ e.removed.isSome = true ∧ e.latest.isSome = true ∧
  (normH h ≠ "" → normH h ∈ candList e) ∧
  dt ≤ maxRead e

/-- The normalised download id `(it.get("downloadId") or "").lower().strip()`. -/
def rDl (it : RadarrEvent) : String := Py.strip (Py.lower (it.downloadId.getD ""))

/-- `movie.get("id") or it.get("movieId")`. -/
def rMid (it : RadarrEvent) : Option Int :=
  if Py.truthyI (it.movie.getD {}).id then (it.movie.getD {}).id else it.movieId

/-- The Radarr loop body reaches `merge_movie` for this event. -/
def rPass (qbOnly : Bool) (qbHashes : List String) (it : RadarrEvent) : Prop :=
  is_rel_radarr it.eventType = true ∧
  ¬(qbOnly = true ∧ (rDl it = "" ∨ rDl it ∉ qbHashes)) ∧
  Py.truthyI (rMid it) = true

/-- The key `str(mid)` under which the event's entry is stored. -/
def rKey (it : RadarrEvent) : String := toString ((rMid it).getD 0)

/-- The in-place entry mutation the loop body performs. -/
def rMergeF (it : RadarrEvent) : Entry → Entry :=
  fun e => merge_movie e (some (rDl it)) it.date (it.movie.getD {}).title (it.movie.getD {}).year

/-- The event's entry exists in the catalog and has absorbed the event. -/
def absorbedR (cat : List (String × Entry)) (it : RadarrEvent) : Prop :=
  ∃ e, dlookup cat (rKey it) = some e ∧
    absorbedMovie e (some (rDl it)) it.date (it.movie.getD {}).title (it.movie.getD {}).year

/-- Fixture: an entry holding hash `aaa` at watermark 1. -/
def exEntryAaa : Entry := { latest := some (some "aaa"), max_event_at := some 1 }

/-- The normalised Sonarr download id. -/
def sDl (it : SonarrEvent) : String := Py.strip (Py.lower (it.downloadId.getD ""))

/-- `ep.get("id") or it.get("episodeId")`. -/
def sEid (it : SonarrEvent) : Option Int :=
  if Py.truthyI (it.episode.getD {}).id then (it.episode.getD {}).id else it.episodeId

/-- The Sonarr loop body reaches `merge_episode` for this event. -/
def sPass (qbOnly : Bool) (qbHashes : List String) (it : SonarrEvent) : Prop :=
  is_rel_sonarr it.eventType = true ∧
  ¬(qbOnly = true ∧ (sDl it = "" ∨ sDl it ∉ qbHashes)) ∧
  (Py.truthyI it.seriesId = true ∧ Py.truthyI (sEid it) = true)

/-- The series-level key `str(series_id)`. -/
def sKey (it : SonarrEvent) : String := toString (it.seriesId.getD 0)

/-- The episode-level key `str(eid)`. -/
def sEKey (it : SonarrEvent) : String := toString ((sEid it).getD 0)

/-- The entry-level mutation applied to the episode entry. -/
def sMergeF (it : SonarrEvent) : Entry → Entry :=
  fun e => merge_episode e (some (sDl it)) it.date (it.episode.getD {}).title
    (it.episode.getD {}).seasonNumber (it.episode.getD {}).episodeNumber

/-- The fresh series value `{"seriesTitle": series.get("title"), "episodes": {}}`. -/
def sDflt (it : SonarrEvent) : SeriesEntry :=
  { seriesTitle := (it.series.getD {}).title, episodes := [] }

/-- The series-level mutation applied by the loop body. -/
def sUpd (it : SonarrEvent) : SeriesEntry → SeriesEntry :=
  fun se => { se with episodes := dupdate se.episodes (sEKey it) emptyEntry (sMergeF it) }

/-- The event's episode entry exists (under its series) and has
absorbed the event. -/
def absorbedS (cat : List (String × SeriesEntry)) (it : SonarrEvent) : Prop :=
  ∃ se e, dlookup cat (sKey it) = some se ∧
    dlookup se.episodes (sEKey it) = some e ∧
    absorbedEpisode e (some (sDl it)) it.date (it.episode.getD {}).title

end BuildCatalog

/-!
## `qBittorrent/relocated-torrent.py` — restore planner/executor

The run is modelled from the point where the input mapping has been
loaded and the torrent list fetched (`main`, lines 184 onward): tag
selection, action building with target-folder resolution, the dry-run
gate, the confirmation gate, and the apply loop.  The qBittorrent API
is an oracle (`ApiBehavior`) deciding which calls succeed, and the run
returns the full trace of API calls it issued, so that "zero mutating
calls" is a statement about the trace.  Python exception texts appended
after `"... failed: "` in notes are abstracted to the fixed message
prefix.  A mapping entry is modelled as the record of the JSON keys the
script reads; `if not mapping` (an absent or empty entry) is the
`none` case of the lookup.
-/

namespace RelocatedTorrent

/-- The JSON fields of one input-mapping entry that the script reads. -/
structure Mapping where
  folder : Option String := none
  folderCap : Option String := none
  importedFilePath : Option String := none
  moviefile_path : Option String := none
  movieFile : Option String := none
  mkv_file : Option String := none
  deriving Repr, DecidableEq

/-- The JSON fields of one qBittorrent torrent record that the script
reads. -/
structure QTorrent where
  hash : Option String := none
  name : Option String := none
  save_path : Option String := none
  savePath : Option String := none
  state : Option String := none
  tags : Option String := none
  deriving Repr, DecidableEq

/-- `parse_tags(tag_str)`: split on commas, strip, lowercase, drop
empties. -/
def parse_tags (tag_str : Option String) : List String :=
  if ¬ Py.truthyS tag_str then []
  else (Py.split (tag_str.getD "") ",").filterMap (fun t =>
    if Py.strip t = "" then none else some (Py.lower (Py.strip t)))

/-- `dirname_of_path(p)`: `None` for falsy input, else
`str(Path(p).parent)`. -/
def dirname_of_path (p : Option String) : Option String :=
  if ¬ Py.truthyS p then none
  else some (PyPath.parentStr (p.getD ""))

/-- Target-folder resolution for one mapping entry (`main`,
lines 210–214): prefer `folder`/`Folder`, fall back to the parent of an
imported-file field; if the resolved string ends in `.mkv`, replace it
by the parent of the imported-file fields (note: `movieFile` is part of
the first chain but not of the second). -/
def target_folder (m : Mapping) : Option String :=
  let tf := Py.firstTruthyO [m.folder, m.folderCap,
    dirname_of_path (Py.firstTruthyO
      [m.importedFilePath, m.moviefile_path, m.movieFile, m.mkv_file])]
  if Py.truthyS tf ∧ Py.endsWithS (Py.lower (tf.getD "")) ".mkv" then
    dirname_of_path (Py.firstTruthyO [m.importedFilePath, m.moviefile_path, m.mkv_file])
  else tf

/-- One planned action (`main`, lines 216–223). -/
structure RAction where
  hash : String
  name : Option String
  save_path : String
  state : Option String
  target_folder : Option String
  mapping_raw : Mapping
  deriving Repr, DecidableEq

/-- Build the action list from the tag-selected torrents (`main`,
lines 198–223): skip hashless torrents and torrents with no mapping. -/
def buildActions (input_map : List (String × Mapping)) (selected : List QTorrent) :
    List RAction :=
  selected.filterMap (fun t =>
    let h := Py.upper (Py.strip (t.hash.getD ""))
    if h = "" then none
    else match BuildCatalog.dlookup input_map h with
      | none => none
      | some mapping => some
        { hash := h
          name := t.name
          save_path := Py.firstTruthyD [t.save_path, t.savePath] ""
          state := t.state
          target_folder := target_folder mapping
          mapping_raw := mapping })

/-- One qBittorrent API call issued by the apply loop. -/
inductive ApiCall where
  | setLocation (hash folder : String)
  | recheck (hash : String)
  | fetchInfo (hash : String)
  deriving Repr, DecidableEq

/-- Oracle for the outcome of each API call. -/
structure ApiBehavior where
  setLocationOk : String → String → Bool
  recheckOk : String → Bool
  infoOk : String → Bool
  infoState : String → Option String

/-- One row of the apply-results document. -/
structure ResultRow where
  hash : String
  name : Option String
  ok_setLocation : Bool
  ok_recheck : Bool
  state_after : Option String
  notes : List String
  deriving Repr, DecidableEq

/-- The apply-loop body for one action (`main`, lines 270–319): returns
the result row recorded for the action and the API calls issued for
it. -/
def applyOne (api : ApiBehavior) (a : RAction) : ResultRow × List ApiCall :=
  let row : ResultRow :=
    { hash := a.hash
      name := a.name
      ok_setLocation := false
      ok_recheck := false
      state_after := none
      notes := [] }
  if ¬ Py.truthyS a.target_folder then
    ({ row with notes := ["no target_folder in mapping"] }, [])
  else
    let tgt := a.target_folder.getD ""
    if ¬ api.setLocationOk a.hash tgt then
      ({ row with notes := ["setLocation failed"] }, [ApiCall.setLocation a.hash tgt])
    else if ¬ api.recheckOk a.hash then
      ({ row with ok_setLocation := true, notes := ["recheck failed"] },
        [ApiCall.setLocation a.hash tgt, ApiCall.recheck a.hash])
    else if ¬ api.infoOk a.hash then
      ({ row with ok_setLocation := true, ok_recheck := true, notes := ["fetch info after recheck failed"] },
        [ApiCall.setLocation a.hash tgt, ApiCall.recheck a.hash, ApiCall.fetchInfo a.hash])
    else
      ({ row with ok_setLocation := true, ok_recheck := true, state_after := api.infoState a.hash },
        [ApiCall.setLocation a.hash tgt, ApiCall.recheck a.hash, ApiCall.fetchInfo a.hash])

/-- One row of the dry-run plan document (`main`, lines 242–250). -/
structure PlanRow where
  hash : String
  name : Option String
  from_save_path : String
  to_folder : Option String
  note : String
  deriving Repr, DecidableEq

/-- The dry-run plan rows for an action list. -/
def planOf (actions : List RAction) : List PlanRow :=
  actions.map (fun a =>
    { hash := a.hash, name := a.name, from_save_path := a.save_path,
      to_folder := a.target_folder, note := "DRY_RUN - no action performed" })

/-- The CLI/interaction inputs that steer the run. -/
structure Args where
  tag : String
  apply : Bool
  yes : Bool
  stdin_tty : Bool
  confirm_ans : String
  deriving Repr, DecidableEq

/-- The observable outcome of a run: exit code, trace of API calls
issued, and the plan/results documents written (if any). -/
structure RunOut where
  exit : Nat
  calls : List ApiCall
  plan : Option (List PlanRow)
  results : Option (List ResultRow)
  deriving Repr, DecidableEq

/-- The selected torrents (`main`, lines 185–189): tag filter,
client-side, case-insensitive. -/
def selectTorrents (tag : String) (all_torrents : List QTorrent) : List QTorrent :=
  all_torrents.filter (fun t => Py.lower tag ∈ parse_tags t.tags)

/-- `main` from the point the torrent list has been fetched: selection,
planning, the dry-run and confirmation gates, and the apply loop. -/
def run (args : Args) (input_map : List (String × Mapping))
    (all_torrents : List QTorrent) (api : ApiBehavior) : RunOut :=
  let dryRun := !args.apply
  let actions := buildActions input_map (selectTorrents args.tag all_torrents)
  if actions = [] then { exit := 0, calls := [], plan := none, results := none }
  else if dryRun = true then
    { exit := 0, calls := [], plan := some (planOf actions), results := none }
  else if ¬ args.yes ∧ ¬ args.stdin_tty then
    { exit := 1, calls := [], plan := none, results := none }
  else if ¬ args.yes ∧ Py.lower (Py.strip args.confirm_ans) ∉ ["y", "yes", "o", "oui"] then
    { exit := 0, calls := [], plan := none, results := none }
  else
    let rc := actions.map (applyOne api)
    { exit := 0, calls := (rc.map Prod.snd).flatten, plan := none,
      results := some (rc.map Prod.fst) }

/-- Fixture: a mapping entry with a plain folder. -/
def exMapping : Mapping := { folder := some "/data/x" }

/-- Fixture: an input map keyed by uppercase hash. -/
def exMap : List (String × Mapping) := [("ABC123", exMapping)]

/-- Fixture: a torrent tagged `restore`. -/
def exTorrent : QTorrent :=
  { hash := some "abc123", name := some "T", save_path := some "/old", tags := some "restore,foo" }

/-- Fixture: an API oracle whose set-location call always fails. -/
def exApiFailSet : ApiBehavior :=
  { setLocationOk := fun _ _ => false
    recheckOk := fun _ => true
    infoOk := fun _ => true
    infoState := fun _ => none }

/-- Fixture: an API oracle where every call succeeds. -/
def exApiOk : ApiBehavior :=
  { setLocationOk := fun _ _ => true
    recheckOk := fun _ => true
    infoOk := fun _ => true
    infoState := fun _ => some "checkingUP" }

/-- Fixture: an apply run with confirmation bypassed. -/
def exArgsApply : Args :=
  { tag := "restore", apply := true, yes := true, stdin_tty := true, confirm_ans := "" }

/-- Fixture: the default dry run. -/
def exArgsDry : Args :=
  { tag := "restore", apply := false, yes := false, stdin_tty := false, confirm_ans := "" }

/-- Fixture: a mapping whose folder field is itself a media-file path
and which has no fallback path fields. -/
def exMkvMapping : Mapping := { folder := some "/a/b/file.mkv" }

/-- Fixture: a torrent whose mapping has no usable target folder. -/
def exTorrentNoTarget : QTorrent :=
  { hash := some "ffff00", name := some "U", save_path := some "/old2", tags := some "restore" }

/-- Fixture: input map with one no-target mapping and one good one. -/
def exMapMixed : List (String × Mapping) :=
  [("FFFF00", { }), ("ABC123", exMapping)]

/-- Fixture: a mapping whose folder field is a media-file path but
which carries an imported-file path to fall back on. -/
def exC8Mapping : Mapping :=
  { folder := some "/x/y.mkv", importedFilePath := some "/data/Movies/M/file.mkv" }

/-- Fixture: the action built for the no-target torrent. -/
def exActionNoTarget : RAction :=
  { hash := "FFFF00"
    name := some "U"
    save_path := "/old2"
    state := none
    target_folder := none
    mapping_raw := { } }

end RelocatedTorrent

/-!
## `Radarr/radarr_history_export.py` — `request_with_retry`

The loop is driven by a responder oracle giving the HTTP outcome of
each attempt.  The crucial modelling point is exception flow: the whole
loop body sits in one `try`, and `r.raise_for_status()` on a 4xx raises
`requests.HTTPError`, a subclass of `requests.RequestException` — so it
is caught by the loop's own `except requests.RequestException` handler
and retried like a network error.  Only the non-JSON `RuntimeError`
escapes the handler.
-/

namespace RadarrHistory

/-- The outcome of one `requests.get` as the loop body observes it. -/
inductive HResp where
  | ok (validJson : Bool)
  | httpStatus (code : Nat)
  | netErr
  deriving Repr, DecidableEq

/-- Python exception classes relevant to the loop body. -/
inductive Exc where
  | requestException
  | runtimeError
  deriving Repr, DecidableEq

/-- One pass through the `try` body: `.ok (some ())` is a `return`,
`.ok none` falls through to `attempt += 1`, `.error` is a raised
exception.  `httpStatus code` stands for a non-200 response. -/
def tryBody (resp : HResp) : Except Exc (Option Unit) :=
  match resp with
  | .ok true => .ok (some ())
  | .ok false => .error .runtimeError
  | .httpStatus code =>
    if code = 429 then .ok none
    else if 400 ≤ code ∧ code < 500 then .error .requestException
    else .ok none
  | .netErr => .error .requestException

/-- How a call to `request_with_retry` ends. -/
inductive FetchOutcome where
  | success (attempt : Nat)
  | fatalNonJson (attempt : Nat)
  | exhausted
  deriving Repr, DecidableEq

/-- `MAX_RETRIES` from the script's configuration block. -/
def MAX_RETRIES : Nat := 5

/-- The `while attempt < MAX_RETRIES` loop, with the remaining
attempt budget as fuel: a raised `RequestException` (network error *or*
the `HTTPError` from `raise_for_status`) is caught, backed off and
retried; a `RuntimeError` escapes; running out of budget raises the
generic exhaustion error. -/
def retryLoop (responder : Nat → HResp) : Nat → Nat → FetchOutcome
  | _, 0 => .exhausted
  | attempt, fuel + 1 =>
    match tryBody (responder attempt) with
    | .ok (some _) => .success attempt
    | .error .runtimeError => .fatalNonJson attempt
    | .ok none => retryLoop responder (attempt + 1) fuel
    | .error .requestException => retryLoop responder (attempt + 1) fuel

/-- `request_with_retry(url, headers, params)`, abstracted over the
responder. -/
def request_with_retry (responder : Nat → HResp) : FetchOutcome :=
  retryLoop responder 0 MAX_RETRIES

end RadarrHistory

/-!
## `Radarr/radar_movies_import.py` — multi-tier torrent matcher

The per-movie matching block of `main` (lines 172–216): save-path tier,
name/file-list tier, then deduplication by uppercased hash where the
first match's reason wins.  A torrent's file listing (a per-torrent
network call) is part of the torrent record here: `filesExc` marks the
call as raising (timeout/404), in which case the torrent is silently
skipped by the file-list tier.
-/

namespace RadarrImport

/-- The fields of one qBittorrent torrent record that the matcher
reads, together with the oracle outcome of `qb_get_torrent_files`
(each file entry is its optional `name` field). -/
structure MTorrent where
  hash : Option String := none
  name : Option String := none
  save_path : Option String := none
  savePath : Option String := none
  filesExc : Bool := false
  files : List (Option String) := []
  deriving Repr, DecidableEq

/-- `normalize_path(p)`: `None` for falsy input, else `str(Path(p))`. -/
def normalize_path (p : Option String) : Option String :=
  if ¬ Py.truthyS p then none
  else some (PyPath.pathStr (p.getD ""))

/-- The key under which a torrent is indexed by save path:
`normalize_path(t.get("save_path") or t.get("savePath") or "")`. -/
def spOf (t : MTorrent) : Option String :=
  normalize_path (some (Py.firstTruthyD [t.save_path, t.savePath] ""))

/-- A pre-deduplication match: the torrent and the tier's reason. -/
structure MatchedPre where
  torrent : MTorrent
  reason : String
  deriving Repr, DecidableEq

/-- Tier 1 (`main`, lines 176–179): all torrents indexed under the
movie folder, reason `save_path`. -/
def tier1 (folder : Option String) (torrents : List MTorrent) : List MatchedPre :=
  if Py.truthyS folder then
    (torrents.filter (fun t => spOf t == folder)).map
      (fun t => { torrent := t, reason := "save_path" })
  else []

/-- Tier 2 (`main`, lines 182–201): for every torrent, cheap name
containment first, else the per-torrent file listing (errors
swallowed). -/
def tier2 (fname : String) (torrents : List MTorrent) : List MatchedPre :=
  torrents.filterMap (fun t =>
    if Py.containsSub (Py.lower (t.name.getD "")) fname then
      some { torrent := t, reason := "name_contains_filename" }
    else if t.filesExc then none
    else if t.files.any (fun f =>
        fname = (Py.split (Py.lower (f.getD "")) "/").getLastD "") then
      some { torrent := t, reason := "files_list" }
    else none)

/-- All pre-deduplication matches for one movie (`matched` in the
source): tier 1, then tier 2 when an mkv filename is known
(`fname = mkv_files[0].lower()`). -/
def matchedFor (folder : Option String) (mkv_files : List String)
    (torrents : List MTorrent) : List MatchedPre :=
  tier1 folder torrents ++
    (match mkv_files with
     | [] => []
     | f :: _ => tier2 (Py.lower f) torrents)

/-- One record of the `matched_torrents` output. -/
structure MatchedOut where
  hash : String
  name : Option String
  save_path : Option String
  matched_by : String
  deriving Repr, DecidableEq

/-- The uppercased hash under which a match is deduplicated. -/
def hOf (m : MatchedPre) : String := Py.upper (m.torrent.hash.getD "")

/-- The output record built for a match that survives deduplication. -/
def recordOf (m : MatchedPre) : MatchedOut :=
  { hash := hOf m
    name := m.torrent.name
    save_path := normalize_path (some (Py.firstTruthyD [m.torrent.save_path, m.torrent.savePath] ""))
    matched_by := m.reason }

/-- Deduplication by hash (`main`, lines 203–216): empty hashes and
already-seen hashes are skipped; the first occurrence's reason wins. -/
def dedup (seen : List String) : List MatchedPre → List MatchedOut
  | [] => []
  | m :: rest =>
    if hOf m = "" ∨ hOf m ∈ seen then dedup seen rest
    else recordOf m :: dedup (hOf m :: seen) rest

/-- The deduplicated `matched_torrents` list for one movie. -/
def matched_torrents (folder : Option String) (mkv_files : List String)
    (torrents : List MTorrent) : List MatchedOut :=
  dedup [] (matchedFor folder mkv_files torrents)

/-- Fixture: a torrent that matches one movie both by save path and by
name. -/
def exMatchTorrent : MTorrent :=
  { hash := some "abc", name := some "foo (2020).mkv whatever",
    save_path := some "/data/Movies/Foo (2020)" }

end RadarrImport

/-!
## Proof development

Lemmas about the embedded definitions, leading up to the claim
theorems at the end of the file.
-/

open RelocatedTorrent BuildCatalog RadarrHistory RadarrImport

namespace BuildCatalog

theorem merge_movie_of_absorbed (e : Entry) (h : Option String) (dt : Int)
    (t : Option String) (y : Option Int) (ha : absorbedMovie e h dt t y) :
    merge_movie e h dt t y = e := by
  obtain ⟨h1, h2, h3, h4, h5, h6, h7⟩ := ha
  obtain ⟨t0, s0, ep0, y0, c0, r0, l0, m0⟩ := e
  obtain ⟨cl, rfl⟩ : ∃ cl, c0 = some cl := by
    cases c0 with
    | none => simp at h3
    | some cl => exact ⟨cl, rfl⟩
  obtain ⟨rl, rfl⟩ : ∃ rl, r0 = some rl := by
    cases r0 with
    | none => simp at h4
    | some rl => exact ⟨rl, rfl⟩
  obtain ⟨lv, rfl⟩ : ∃ lv, l0 = some lv := by
    cases l0 with
    | none => simp at h5
    | some lv => exact ⟨lv, rfl⟩
  simp only [normH, candList, maxRead, Option.getD_some] at h6 h7
  have hc : ¬(Py.strip (Py.lower (h.getD "")) ≠ "" ∧ Py.strip (Py.lower (h.getD "")) ∉ cl) := by
    intro hx
    exact hx.2 (h6 hx.1)
  have hd : ¬(dt > m0.getD epoch1970) := by omega
  by_cases ht : Py.truthyS t = true
  · obtain ⟨tv, rfl⟩ : ∃ tv, t0 = some tv := by
      cases t0 with
      | none => exact absurd (h1 ht) (by simp)
      | some tv => exact ⟨tv, rfl⟩
    by_cases hy : Py.truthyI y = true
    · obtain ⟨yv, rfl⟩ : ∃ yv, y0 = some yv := by
        cases y0 with
        | none => exact absurd (h2 hy) (by simp)
        | some yv => exact ⟨yv, rfl⟩
      simp [merge_movie, Py.setdefault, ht, hy, hc, hd]
    · simp [merge_movie, Py.setdefault, ht, hy, hc, hd]
  · by_cases hy : Py.truthyI y = true
    · obtain ⟨yv, rfl⟩ : ∃ yv, y0 = some yv := by
        cases y0 with
        | none => exact absurd (h2 hy) (by simp)
        | some yv => exact ⟨yv, rfl⟩
      simp [merge_movie, Py.setdefault, ht, hy, hc, hd]
    · simp [merge_movie, Py.setdefault, ht, hy, hc, hd]

theorem setdefault_eq {α : Type} (o : Option α) (d : α) :
    Py.setdefault o d = some (o.getD d) := by
  cases o <;> rfl

/-- Closed form of `merge_movie` over a destructured entry. -/
theorem merge_movie_eq (t0 : Option String) (s0 ep0 : Option (Option Int))
    (y0 : Option Int) (c0 r0 : Option (List String)) (l0 : Option (Option String))
    (m0 : Option Int) (h : Option String) (dt : Int) (t : Option String) (y : Option Int) :
    merge_movie ⟨t0, s0, ep0, y0, c0, r0, l0, m0⟩ h dt t y =
      { title := if Py.truthyS t then some (t0.getD (t.getD "")) else t0
        season := s0
        episode := ep0
        year := if Py.truthyI y then some (y0.getD (y.getD 0)) else y0
        candidates := some (if normH h ≠ "" ∧ normH h ∉ c0.getD [] then
          c0.getD [] ++ [normH h] else c0.getD [])
        removed := some (r0.getD [])
        latest := some (if dt > m0.getD epoch1970 then
          (if normH h ≠ "" then some (normH h) else l0.getD none) else l0.getD none)
        max_event_at := if dt > m0.getD epoch1970 then some dt else m0 } := by
  by_cases ht : Py.truthyS t = true <;>
  by_cases hy : Py.truthyI y = true <;>
  by_cases hc : Py.strip (Py.lower (h.getD "")) ≠ "" ∧ Py.strip (Py.lower (h.getD "")) ∉ c0.getD [] <;>
  by_cases hd : dt > m0.getD epoch1970 <;>
  simp [merge_movie, normH, setdefault_eq, ht, hy, hc, hd]

/-- Closed form of `merge_episode` over a destructured entry. -/
theorem merge_episode_eq (t0 : Option String) (s0 ep0 : Option (Option Int))
    (y0 : Option Int) (c0 r0 : Option (List String)) (l0 : Option (Option String))
    (m0 : Option Int) (h : Option String) (dt : Int) (t : Option String)
    (season epnum : Option Int) :
    merge_episode ⟨t0, s0, ep0, y0, c0, r0, l0, m0⟩ h dt t season epnum =
      { title := if Py.truthyS t then some (t0.getD (t.getD "")) else t0
        season := some (s0.getD season)
        episode := some (ep0.getD epnum)
        year := y0
        candidates := some (if normH h ≠ "" ∧ normH h ∉ c0.getD [] then
          c0.getD [] ++ [normH h] else c0.getD [])
        removed := some (r0.getD [])
        latest := some (if dt > m0.getD epoch1970 then
          (if normH h ≠ "" then some (normH h) else l0.getD none) else l0.getD none)
        max_event_at := if dt > m0.getD epoch1970 then some dt else m0 } := by
  by_cases ht : Py.truthyS t = true <;>
  by_cases hc : Py.strip (Py.lower (h.getD "")) ≠ "" ∧ Py.strip (Py.lower (h.getD "")) ∉ c0.getD [] <;>
  by_cases hd : dt > m0.getD epoch1970 <;>
  simp [merge_episode, normH, setdefault_eq, ht, hc, hd]

theorem merge_movie_keys (e : Entry) (h : Option String) (dt : Int)
    (t : Option String) (y : Option Int) :
    (merge_movie e h dt t y).candidates.isSome = true ∧
    (merge_movie e h dt t y).removed.isSome = true ∧
    (merge_movie e h dt t y).latest.isSome = true := by
  obtain ⟨t0, s0, ep0, y0, c0, r0, l0, m0⟩ := e
  rw [merge_movie_eq]
  simp

theorem merge_movie_cand_mono (e : Entry) (h : Option String) (dt : Int)
    (t : Option String) (y : Option Int) (x : String) (hx : x ∈ candList e) :
    x ∈ candList (merge_movie e h dt t y) := by
  obtain ⟨t0, s0, ep0, y0, c0, r0, l0, m0⟩ := e
  rw [merge_movie_eq]
  simp only [candList] at hx ⊢
  split_ifs <;> simp_all

theorem merge_movie_cand_self (e : Entry) (h : Option String) (dt : Int)
    (t : Option String) (y : Option Int) (hh : normH h ≠ "") :
    normH h ∈ candList (merge_movie e h dt t y) := by
  obtain ⟨t0, s0, ep0, y0, c0, r0, l0, m0⟩ := e
  rw [merge_movie_eq]
  simp only [candList, Option.getD_some]
  split_ifs with hsp
  · simp
  · rcases not_and_or.mp hsp with hx | hx
    · exact absurd hh hx
    · simpa using not_not.mp hx

theorem merge_movie_maxRead (e : Entry) (h : Option String) (dt : Int)
    (t : Option String) (y : Option Int) :
    maxRead e ≤ maxRead (merge_movie e h dt t y) ∧
    dt ≤ maxRead (merge_movie e h dt t y) := by
  obtain ⟨t0, s0, ep0, y0, c0, r0, l0, m0⟩ := e
  rw [merge_movie_eq]
  simp only [maxRead]
  split_ifs with hd <;> simp <;> omega

theorem merge_movie_title_mono (e : Entry) (h : Option String) (dt : Int)
    (t : Option String) (y : Option Int) :
    (e.title.isSome = true → (merge_movie e h dt t y).title.isSome = true) ∧
    (Py.truthyS t = true → (merge_movie e h dt t y).title.isSome = true) := by
  obtain ⟨t0, s0, ep0, y0, c0, r0, l0, m0⟩ := e
  rw [merge_movie_eq]
  constructor <;> intro hx <;> simp only <;> split_ifs <;> simp_all

theorem merge_movie_year_mono (e : Entry) (h : Option String) (dt : Int)
    (t : Option String) (y : Option Int) :
    (e.year.isSome = true → (merge_movie e h dt t y).year.isSome = true) ∧
    (Py.truthyI y = true → (merge_movie e h dt t y).year.isSome = true) := by
  obtain ⟨t0, s0, ep0, y0, c0, r0, l0, m0⟩ := e
  rw [merge_movie_eq]
  constructor <;> intro hx <;> simp only <;> split_ifs <;> simp_all

/-- After merging an event, that event is absorbed. -/
theorem merge_movie_absorbs (e : Entry) (h : Option String) (dt : Int)
    (t : Option String) (y : Option Int) :
    absorbedMovie (merge_movie e h dt t y) h dt t y := by
  refine ⟨(merge_movie_title_mono e h dt t y).2,
    (merge_movie_year_mono e h dt t y).2,
    (merge_movie_keys e h dt t y).1,
    (merge_movie_keys e h dt t y).2.1,
    (merge_movie_keys e h dt t y).2.2,
    fun hh => merge_movie_cand_self e h dt t y hh,
    (merge_movie_maxRead e h dt t y).2⟩

/-- Absorption is preserved by merging any further event. -/
theorem merge_movie_preserves_absorbed (e : Entry) (h : Option String) (dt : Int)
    (t : Option String) (y : Option Int)
    (h' : Option String) (dt' : Int) (t' : Option String) (y' : Option Int)
    (ha : absorbedMovie e h dt t y) :
    absorbedMovie (merge_movie e h' dt' t' y') h dt t y := by
  obtain ⟨h1, h2, h3, h4, h5, h6, h7⟩ := ha
  refine ⟨fun hx => (merge_movie_title_mono e h' dt' t' y').1 (h1 hx),
    fun hx => (merge_movie_year_mono e h' dt' t' y').1 (h2 hx),
    (merge_movie_keys e h' dt' t' y').1,
    (merge_movie_keys e h' dt' t' y').2.1,
    (merge_movie_keys e h' dt' t' y').2.2,
    fun hh => merge_movie_cand_mono e h' dt' t' y' _ (h6 hh),
    le_trans h7 (merge_movie_maxRead e h' dt' t' y').1⟩

theorem merge_episode_keys (e : Entry) (h : Option String) (dt : Int)
    (t : Option String) (sn en : Option Int) :
    (merge_episode e h dt t sn en).candidates.isSome = true ∧
    (merge_episode e h dt t sn en).removed.isSome = true ∧
    (merge_episode e h dt t sn en).latest.isSome = true ∧
    (merge_episode e h dt t sn en).season.isSome = true ∧
    (merge_episode e h dt t sn en).episode.isSome = true := by
  obtain ⟨t0, s0, ep0, y0, c0, r0, l0, m0⟩ := e
  rw [merge_episode_eq]
  simp

theorem merge_episode_cand_mono (e : Entry) (h : Option String) (dt : Int)
    (t : Option String) (sn en : Option Int) (x : String) (hx : x ∈ candList e) :
    x ∈ candList (merge_episode e h dt t sn en) := by
  obtain ⟨t0, s0, ep0, y0, c0, r0, l0, m0⟩ := e
  rw [merge_episode_eq]
  simp only [candList] at hx ⊢
  split_ifs <;> simp_all

theorem merge_episode_cand_self (e : Entry) (h : Option String) (dt : Int)
    (t : Option String) (sn en : Option Int) (hh : normH h ≠ "") :
    normH h ∈ candList (merge_episode e h dt t sn en) := by
  obtain ⟨t0, s0, ep0, y0, c0, r0, l0, m0⟩ := e
  rw [merge_episode_eq]
  simp only [candList, Option.getD_some]
  split_ifs with hsp
  · simp
  · rcases not_and_or.mp hsp with hx | hx
    · exact absurd hh hx
    · simpa using not_not.mp hx

theorem merge_episode_maxRead (e : Entry) (h : Option String) (dt : Int)
    (t : Option String) (sn en : Option Int) :
    maxRead e ≤ maxRead (merge_episode e h dt t sn en) ∧
    dt ≤ maxRead (merge_episode e h dt t sn en) := by
  obtain ⟨t0, s0, ep0, y0, c0, r0, l0, m0⟩ := e
  rw [merge_episode_eq]
  simp only [maxRead]
  split_ifs with hd <;> simp <;> omega

theorem merge_episode_title_mono (e : Entry) (h : Option String) (dt : Int)
    (t : Option String) (sn en : Option Int) :
    (e.title.isSome = true → (merge_episode e h dt t sn en).title.isSome = true) ∧
    (Py.truthyS t = true → (merge_episode e h dt t sn en).title.isSome = true) := by
  obtain ⟨t0, s0, ep0, y0, c0, r0, l0, m0⟩ := e
  rw [merge_episode_eq]
  constructor <;> intro hx <;> simp only <;> split_ifs <;> simp_all

/-- After merging an event, that event is absorbed. -/
theorem merge_episode_absorbs (e : Entry) (h : Option String) (dt : Int)
    (t : Option String) (sn en : Option Int) :
    absorbedEpisode (merge_episode e h dt t sn en) h dt t := by
  refine ⟨(merge_episode_title_mono e h dt t sn en).2,
    (merge_episode_keys e h dt t sn en).2.2.2.1,
    (merge_episode_keys e h dt t sn en).2.2.2.2,
    (merge_episode_keys e h dt t sn en).1,
    (merge_episode_keys e h dt t sn en).2.1,
    (merge_episode_keys e h dt t sn en).2.2.1,
    fun hh => merge_episode_cand_self e h dt t sn en hh,
    (merge_episode_maxRead e h dt t sn en).2⟩

/-- Absorption is preserved by merging any further event. -/
theorem merge_episode_preserves_absorbed (e : Entry) (h : Option String) (dt : Int)
    (t : Option String)
    (h' : Option String) (dt' : Int) (t' : Option String) (sn' en' : Option Int)
    (ha : absorbedEpisode e h dt t) :
    absorbedEpisode (merge_episode e h' dt' t' sn' en') h dt t := by
  obtain ⟨h1, h2, h3, h4, h5, h6, h7, h8⟩ := ha
  refine ⟨fun hx => (merge_episode_title_mono e h' dt' t' sn' en').1 (h1 hx),
    (merge_episode_keys e h' dt' t' sn' en').2.2.2.1,
    (merge_episode_keys e h' dt' t' sn' en').2.2.2.2,
    (merge_episode_keys e h' dt' t' sn' en').1,
    (merge_episode_keys e h' dt' t' sn' en').2.1,
    (merge_episode_keys e h' dt' t' sn' en').2.2.1,
    fun hh => merge_episode_cand_mono e h' dt' t' sn' en' _ (h7 hh),
    le_trans h8 (merge_episode_maxRead e h' dt' t' sn' en').1⟩

/-- Re-merging an absorbed event is the identity. -/
theorem merge_episode_of_absorbed (e : Entry) (h : Option String) (dt : Int)
    (t : Option String) (sn en : Option Int) (ha : absorbedEpisode e h dt t) :
    merge_episode e h dt t sn en = e := by
  obtain ⟨h1, h2, h3, h4, h5, h6, h7, h8⟩ := ha
  obtain ⟨t0, s0, ep0, y0, c0, r0, l0, m0⟩ := e
  obtain ⟨sv, rfl⟩ : ∃ sv, s0 = some sv := by
    cases s0 with
    | none => simp at h2
    | some sv => exact ⟨sv, rfl⟩
  obtain ⟨ev, rfl⟩ : ∃ ev, ep0 = some ev := by
    cases ep0 with
    | none => simp at h3
    | some ev => exact ⟨ev, rfl⟩
  obtain ⟨cl, rfl⟩ : ∃ cl, c0 = some cl := by
    cases c0 with
    | none => simp at h4
    | some cl => exact ⟨cl, rfl⟩
  obtain ⟨rl, rfl⟩ : ∃ rl, r0 = some rl := by
    cases r0 with
    | none => simp at h5
    | some rl => exact ⟨rl, rfl⟩
  obtain ⟨lv, rfl⟩ : ∃ lv, l0 = some lv := by
    cases l0 with
    | none => simp at h6
    | some lv => exact ⟨lv, rfl⟩
  simp only [normH, candList, maxRead, Option.getD_some] at h7 h8
  rw [merge_episode_eq]
  have hc : ¬(Py.strip (Py.lower (h.getD "")) ≠ "" ∧ Py.strip (Py.lower (h.getD "")) ∉ cl) := by
    intro hx
    exact hx.2 (h7 hx.1)
  have hd : ¬(dt > m0.getD epoch1970) := by omega
  by_cases ht : Py.truthyS t = true
  · obtain ⟨tv, rfl⟩ : ∃ tv, t0 = some tv := by
      cases t0 with
      | none => exact absurd (h1 ht) (by simp)
      | some tv => exact ⟨tv, rfl⟩
    simp [normH, ht, hc, hd]
  · simp [normH, ht, hc, hd]

theorem dlookup_cons {α : Type} (k0 : String) (v : α) (rest : List (String × α))
    (k : String) :
    dlookup ((k0, v) :: rest) k = if k0 = k then some v else dlookup rest k := by
  by_cases h : k0 = k
  · subst h
    simp [dlookup, List.find?]
  · have hbeq : (k0 == k) = false := by simpa using h
    simp [dlookup, List.find?, hbeq, h]

theorem dlookup_dupdate_self {α : Type} (d : List (String × α)) (k : String)
    (dflt : α) (f : α → α) :
    dlookup (dupdate d k dflt f) k = some (f ((dlookup d k).getD dflt)) := by
  induction d with
  | nil => simp [dlookup, dupdate, List.find?]
  | cons p rest ih =>
    obtain ⟨k0, v⟩ := p
    by_cases hk : k0 = k
    · subst hk
      simp [dupdate, dlookup_cons]
    · simp only [dupdate, if_neg hk]
      rw [dlookup_cons, if_neg hk, dlookup_cons, if_neg hk]
      exact ih

theorem dlookup_dupdate_other {α : Type} (d : List (String × α)) (k k' : String)
    (dflt : α) (f : α → α) (hk : k' ≠ k) :
    dlookup (dupdate d k' dflt f) k = dlookup d k := by
  induction d with
  | nil =>
    have hbeq : (k' == k) = false := by simpa using hk
    simp [dupdate, dlookup, List.find?, hbeq]
  | cons p rest ih =>
    obtain ⟨k0, v⟩ := p
    by_cases h0 : k0 = k'
    · subst h0
      rw [dupdate, if_pos rfl, dlookup_cons, dlookup_cons, if_neg hk, if_neg hk]
    · rw [dupdate, if_neg h0, dlookup_cons, dlookup_cons]
      by_cases h1 : k0 = k
      · rw [if_pos h1, if_pos h1]
      · rw [if_neg h1, if_neg h1]
        exact ih

theorem dupdate_of_fixed {α : Type} (d : List (String × α)) (k : String)
    (dflt : α) (f : α → α) (v : α) (hv : dlookup d k = some v) (hf : f v = v) :
    dupdate d k dflt f = d := by
  induction d with
  | nil => simp [dlookup, List.find?] at hv
  | cons p rest ih =>
    obtain ⟨k0, w⟩ := p
    by_cases h0 : k0 = k
    · subst h0
      rw [dlookup_cons, if_pos rfl, Option.some_inj] at hv
      subst hv
      rw [dupdate, if_pos rfl, hf]
    · rw [dlookup_cons, if_neg h0] at hv
      rw [dupdate, if_neg h0, ih hv]

theorem radarrStep_pass (qbOnly : Bool) (qbHashes : List String)
    (cat : List (String × Entry)) (it : RadarrEvent)
    (hp : rPass qbOnly qbHashes it) :
    radarrStep qbOnly qbHashes cat it = dupdate cat (rKey it) emptyEntry (rMergeF it) := by
  obtain ⟨h1, h2, h3⟩ := hp
  simp only [rDl] at h2
  simp only [rMid] at h3
  simp only [radarrStep]
  rw [if_neg (not_not_intro h1), if_neg h2, if_neg (not_not_intro h3)]
  rfl

theorem radarrStep_skip (qbOnly : Bool) (qbHashes : List String)
    (cat : List (String × Entry)) (it : RadarrEvent)
    (hp : ¬ rPass qbOnly qbHashes it) :
    radarrStep qbOnly qbHashes cat it = cat := by
  simp only [rPass, rDl, rMid] at hp
  simp only [radarrStep]
  by_cases h1 : is_rel_radarr it.eventType = true
  · rw [if_neg (not_not_intro h1)]
    by_cases h2 : qbOnly = true ∧
        (Py.strip (Py.lower (it.downloadId.getD "")) = "" ∨
         Py.strip (Py.lower (it.downloadId.getD "")) ∉ qbHashes)
    · rw [if_pos h2]
    · rw [if_neg h2]
      by_cases h3 : Py.truthyI (if Py.truthyI (it.movie.getD {}).id = true
          then (it.movie.getD {}).id else it.movieId) = true
      · exact absurd ⟨h1, h2, h3⟩ hp
      · rw [if_pos h3]
  · rw [if_pos h1]

theorem radarrStep_absorbs (qbOnly : Bool) (qbHashes : List String)
    (cat : List (String × Entry)) (it : RadarrEvent)
    (hp : rPass qbOnly qbHashes it) :
    absorbedR (radarrStep qbOnly qbHashes cat it) it := by
  rw [radarrStep_pass qbOnly qbHashes cat it hp]
  refine ⟨rMergeF it ((dlookup cat (rKey it)).getD emptyEntry),
    dlookup_dupdate_self cat (rKey it) emptyEntry (rMergeF it), ?_⟩
  exact merge_movie_absorbs _ _ _ _ _

theorem radarrStep_preserves (qbOnly : Bool) (qbHashes : List String)
    (cat : List (String × Entry)) (it it' : RadarrEvent)
    (ha : absorbedR cat it) :
    absorbedR (radarrStep qbOnly qbHashes cat it') it := by
  obtain ⟨e, he, hab⟩ := ha
  by_cases hp : rPass qbOnly qbHashes it'
  · rw [radarrStep_pass qbOnly qbHashes cat it' hp]
    by_cases hk : rKey it' = rKey it
    · refine ⟨rMergeF it' ((dlookup cat (rKey it')).getD emptyEntry), ?_, ?_⟩
      · rw [← hk, dlookup_dupdate_self]
      · rw [hk, he]
        exact merge_movie_preserves_absorbed e _ _ _ _ _ _ _ _ hab
    · exact ⟨e, by rw [dlookup_dupdate_other cat (rKey it) (rKey it') emptyEntry (rMergeF it') hk]; exact he, hab⟩
  · rw [radarrStep_skip qbOnly qbHashes cat it' hp]
    exact ⟨e, he, hab⟩

theorem radarrMergeAll_preserves (qbOnly : Bool) (qbHashes : List String)
    (cat : List (String × Entry)) (evs : List RadarrEvent) (it : RadarrEvent)
    (ha : absorbedR cat it) :
    absorbedR (radarrMergeAll qbOnly qbHashes cat evs) it := by
  induction evs generalizing cat with
  | nil => exact ha
  | cons e0 rest ih =>
    exact ih _ (radarrStep_preserves qbOnly qbHashes cat it e0 ha)

theorem radarrMergeAll_absorbs (qbOnly : Bool) (qbHashes : List String)
    (cat : List (String × Entry)) (evs : List RadarrEvent) :
    ∀ it ∈ evs, rPass qbOnly qbHashes it →
      absorbedR (radarrMergeAll qbOnly qbHashes cat evs) it := by
  induction evs generalizing cat with
  | nil => intro it hmem; exact absurd hmem (List.not_mem_nil it)
  | cons e0 rest ih =>
    intro it hmem hpass
    rcases List.mem_cons.mp hmem with rfl | hmem'
    · exact radarrMergeAll_preserves qbOnly qbHashes _ rest it
        (radarrStep_absorbs qbOnly qbHashes cat it hpass)
    · exact ih _ it hmem' hpass

theorem radarrMergeAll_of_absorbed (qbOnly : Bool) (qbHashes : List String)
    (cat : List (String × Entry)) (evs : List RadarrEvent)
    (ha : ∀ it ∈ evs, rPass qbOnly qbHashes it → absorbedR cat it) :
    radarrMergeAll qbOnly qbHashes cat evs = cat := by
  induction evs with
  | nil => rfl
  | cons e0 rest ih =>
    have hstep : radarrStep qbOnly qbHashes cat e0 = cat := by
      by_cases hp : rPass qbOnly qbHashes e0
      · obtain ⟨e, he, hab⟩ := ha e0 (List.mem_cons_self e0 rest) hp
        rw [radarrStep_pass qbOnly qbHashes cat e0 hp]
        exact dupdate_of_fixed cat (rKey e0) emptyEntry (rMergeF e0) e he
          (merge_movie_of_absorbed e _ _ _ _ hab)
      · exact radarrStep_skip qbOnly qbHashes cat e0 hp
    show radarrMergeAll qbOnly qbHashes (radarrStep qbOnly qbHashes cat e0) rest = cat
    rw [hstep]
    exact ih (fun it hmem hp => ha it (List.mem_cons_of_mem e0 hmem) hp)

/-- Re-merging the identical Radarr event batch is the identity on the
`radarr` namespace of the catalog. -/
theorem radarrMergeAll_idem (qbOnly : Bool) (qbHashes : List String)
    (cat : List (String × Entry)) (evs : List RadarrEvent) :
    radarrMergeAll qbOnly qbHashes (radarrMergeAll qbOnly qbHashes cat evs) evs =
      radarrMergeAll qbOnly qbHashes cat evs := by
  exact radarrMergeAll_of_absorbed qbOnly qbHashes _ evs
    (fun it hmem hp => radarrMergeAll_absorbs qbOnly qbHashes cat evs it hmem hp)

theorem merge_movie_latest_update (e : Entry) (h : Option String) (dt : Int)
    (t : Option String) (y : Option Int) (hd : dt > maxRead e) :
    latestVal (merge_movie e h dt t y) =
      (if normH h ≠ "" then some (normH h) else latestVal e) := by
  obtain ⟨t0, s0, ep0, y0, c0, r0, l0, m0⟩ := e
  simp only [maxRead] at hd
  rw [merge_movie_eq]
  simp only [latestVal, Option.getD_some]
  rw [if_pos hd]

theorem merge_movie_max_update (e : Entry) (h : Option String) (dt : Int)
    (t : Option String) (y : Option Int) (hd : dt > maxRead e) :
    (merge_movie e h dt t y).max_event_at = some dt := by
  obtain ⟨t0, s0, ep0, y0, c0, r0, l0, m0⟩ := e
  simp only [maxRead] at hd
  rw [merge_movie_eq]
  simp only
  rw [if_pos hd]

theorem merge_episode_latest_update (e : Entry) (h : Option String) (dt : Int)
    (t : Option String) (sn en : Option Int) (hd : dt > maxRead e) :
    latestVal (merge_episode e h dt t sn en) =
      (if normH h ≠ "" then some (normH h) else latestVal e) := by
  obtain ⟨t0, s0, ep0, y0, c0, r0, l0, m0⟩ := e
  simp only [maxRead] at hd
  rw [merge_episode_eq]
  simp only [latestVal, Option.getD_some]
  rw [if_pos hd]

theorem merge_episode_max_update (e : Entry) (h : Option String) (dt : Int)
    (t : Option String) (sn en : Option Int) (hd : dt > maxRead e) :
    (merge_episode e h dt t sn en).max_event_at = some dt := by
  obtain ⟨t0, s0, ep0, y0, c0, r0, l0, m0⟩ := e
  simp only [maxRead] at hd
  rw [merge_episode_eq]
  simp only
  rw [if_pos hd]

theorem merge_movie_mem_cand (e : Entry) (h : Option String) (dt : Int)
    (t : Option String) (y : Option Int) (x : String) :
    x ∈ candList (merge_movie e h dt t y) ↔
      x ∈ candList e ∨ (x = normH h ∧ normH h ≠ "") := by
  obtain ⟨t0, s0, ep0, y0, c0, r0, l0, m0⟩ := e
  rw [merge_movie_eq]
  simp only [candList, Option.getD_some]
  by_cases hc : normH h ≠ "" ∧ normH h ∉ c0.getD []
  · rw [if_pos hc]
    simp only [List.mem_append, List.mem_singleton]
    constructor
    · rintro (hx | rfl)
      · exact Or.inl hx
      · exact Or.inr ⟨rfl, hc.1⟩
    · rintro (hx | ⟨rfl, _⟩)
      · exact Or.inl hx
      · exact Or.inr rfl
  · rw [if_neg hc]
    rcases not_and_or.mp hc with hx | hx
    · have hempty : normH h = "" := not_not.mp hx
      constructor
      · exact Or.inl
      · rintro (hm | ⟨rfl, hne⟩)
        · exact hm
        · exact absurd hempty hne
    · have hmem : normH h ∈ c0.getD [] := not_not.mp hx
      constructor
      · exact Or.inl
      · rintro (hm | ⟨rfl, _⟩)
        · exact hm
        · exact hmem

theorem merge_movie_maxRead_eq (e : Entry) (h : Option String) (dt : Int)
    (t : Option String) (y : Option Int) :
    maxRead (merge_movie e h dt t y) = max (maxRead e) dt := by
  obtain ⟨t0, s0, ep0, y0, c0, r0, l0, m0⟩ := e
  rw [merge_movie_eq]
  simp only [maxRead]
  by_cases hd : dt > m0.getD epoch1970
  · rw [if_pos hd]
    simp only [Option.getD_some]
    omega
  · rw [if_neg hd]
    omega

theorem sonarrStep_pass (qbOnly : Bool) (qbHashes : List String)
    (cat : List (String × SeriesEntry)) (it : SonarrEvent)
    (hp : sPass qbOnly qbHashes it) :
    sonarrStep qbOnly qbHashes cat it = dupdate cat (sKey it) (sDflt it) (sUpd it) := by
  obtain ⟨h1, h2, h3⟩ := hp
  simp only [sDl] at h2
  simp only [sEid] at h3
  simp only [sonarrStep]
  rw [if_neg (not_not_intro h1), if_neg h2, if_neg (not_not_intro h3)]
  rfl

theorem sonarrStep_skip (qbOnly : Bool) (qbHashes : List String)
    (cat : List (String × SeriesEntry)) (it : SonarrEvent)
    (hp : ¬ sPass qbOnly qbHashes it) :
    sonarrStep qbOnly qbHashes cat it = cat := by
  simp only [sPass, sDl, sEid] at hp
  simp only [sonarrStep]
  by_cases h1 : is_rel_sonarr it.eventType = true
  · rw [if_neg (not_not_intro h1)]
    by_cases h2 : qbOnly = true ∧
        (Py.strip (Py.lower (it.downloadId.getD "")) = "" ∨
         Py.strip (Py.lower (it.downloadId.getD "")) ∉ qbHashes)
    · rw [if_pos h2]
    · rw [if_neg h2]
      by_cases h3 : Py.truthyI it.seriesId = true ∧
          Py.truthyI (if Py.truthyI (it.episode.getD {}).id = true
            then (it.episode.getD {}).id else it.episodeId) = true
      · exact absurd ⟨h1, h2, h3⟩ hp
      · rw [if_pos h3]
  · rw [if_pos h1]

theorem sonarrStep_absorbs (qbOnly : Bool) (qbHashes : List String)
    (cat : List (String × SeriesEntry)) (it : SonarrEvent)
    (hp : sPass qbOnly qbHashes it) :
    absorbedS (sonarrStep qbOnly qbHashes cat it) it := by
  rw [sonarrStep_pass qbOnly qbHashes cat it hp]
  refine ⟨sUpd it ((dlookup cat (sKey it)).getD (sDflt it)),
    sMergeF it ((dlookup ((dlookup cat (sKey it)).getD (sDflt it)).episodes (sEKey it)).getD emptyEntry),
    dlookup_dupdate_self cat (sKey it) (sDflt it) (sUpd it), ?_, ?_⟩
  · exact dlookup_dupdate_self _ (sEKey it) emptyEntry (sMergeF it)
  · exact merge_episode_absorbs _ _ _ _ _ _

theorem sonarrStep_preserves (qbOnly : Bool) (qbHashes : List String)
    (cat : List (String × SeriesEntry)) (it it' : SonarrEvent)
    (ha : absorbedS cat it) :
    absorbedS (sonarrStep qbOnly qbHashes cat it') it := by
  obtain ⟨se, e, hse, he, hab⟩ := ha
  by_cases hp : sPass qbOnly qbHashes it'
  · rw [sonarrStep_pass qbOnly qbHashes cat it' hp]
    by_cases hk : sKey it' = sKey it
    · have houter : dlookup (dupdate cat (sKey it') (sDflt it') (sUpd it')) (sKey it) =
          some (sUpd it' se) := by
        rw [← hk, dlookup_dupdate_self, hk, hse]
        rfl
      by_cases hek : sEKey it' = sEKey it
      · refine ⟨sUpd it' se, sMergeF it' e, houter, ?_, ?_⟩
        · show dlookup (dupdate se.episodes (sEKey it') emptyEntry (sMergeF it')) (sEKey it) =
            some (sMergeF it' e)
          rw [← hek, dlookup_dupdate_self, hek, he]
          rfl
        · exact merge_episode_preserves_absorbed e _ _ _ _ _ _ _ _ hab
      · refine ⟨sUpd it' se, e, houter, ?_, hab⟩
        show dlookup (dupdate se.episodes (sEKey it') emptyEntry (sMergeF it')) (sEKey it) = some e
        rw [dlookup_dupdate_other se.episodes (sEKey it) (sEKey it') emptyEntry (sMergeF it') hek]
        exact he
    · refine ⟨se, e, ?_, he, hab⟩
      rw [dlookup_dupdate_other cat (sKey it) (sKey it') (sDflt it') (sUpd it') hk]
      exact hse
  · rw [sonarrStep_skip qbOnly qbHashes cat it' hp]
    exact ⟨se, e, hse, he, hab⟩

theorem sonarrMergeAll_preserves (qbOnly : Bool) (qbHashes : List String)
    (cat : List (String × SeriesEntry)) (evs : List SonarrEvent) (it : SonarrEvent)
    (ha : absorbedS cat it) :
    absorbedS (sonarrMergeAll qbOnly qbHashes cat evs) it := by
  induction evs generalizing cat with
  | nil => exact ha
  | cons e0 rest ih =>
    exact ih _ (sonarrStep_preserves qbOnly qbHashes cat it e0 ha)

theorem sonarrMergeAll_absorbs (qbOnly : Bool) (qbHashes : List String)
    (cat : List (String × SeriesEntry)) (evs : List SonarrEvent) :
    ∀ it ∈ evs, sPass qbOnly qbHashes it →
      absorbedS (sonarrMergeAll qbOnly qbHashes cat evs) it := by
  induction evs generalizing cat with
  | nil => intro it hmem; exact absurd hmem (List.not_mem_nil it)
  | cons e0 rest ih =>
    intro it hmem hpass
    rcases List.mem_cons.mp hmem with rfl | hmem'
    · exact sonarrMergeAll_preserves qbOnly qbHashes _ rest it
        (sonarrStep_absorbs qbOnly qbHashes cat it hpass)
    · exact ih _ it hmem' hpass

theorem sonarrMergeAll_of_absorbed (qbOnly : Bool) (qbHashes : List String)
    (cat : List (String × SeriesEntry)) (evs : List SonarrEvent)
    (ha : ∀ it ∈ evs, sPass qbOnly qbHashes it → absorbedS cat it) :
    sonarrMergeAll qbOnly qbHashes cat evs = cat := by
  induction evs with
  | nil => rfl
  | cons e0 rest ih =>
    have hstep : sonarrStep qbOnly qbHashes cat e0 = cat := by
      by_cases hp : sPass qbOnly qbHashes e0
      · obtain ⟨se, e, hse, he, hab⟩ := ha e0 (List.mem_cons_self e0 rest) hp
        rw [sonarrStep_pass qbOnly qbHashes cat e0 hp]
        refine dupdate_of_fixed cat (sKey e0) (sDflt e0) (sUpd e0) se hse ?_
        show { se with episodes := dupdate se.episodes (sEKey e0) emptyEntry (sMergeF e0) } = se
        rw [dupdate_of_fixed se.episodes (sEKey e0) emptyEntry (sMergeF e0) e he
          (merge_episode_of_absorbed e _ _ _ _ _ hab)]
      · exact sonarrStep_skip qbOnly qbHashes cat e0 hp
    show sonarrMergeAll qbOnly qbHashes (sonarrStep qbOnly qbHashes cat e0) rest = cat
    rw [hstep]
    exact ih (fun it hmem hp => ha it (List.mem_cons_of_mem e0 hmem) hp)

/-- Re-merging the identical Sonarr event batch is the identity on the
`sonarr` namespace of the catalog. -/
theorem sonarrMergeAll_idem (qbOnly : Bool) (qbHashes : List String)
    (cat : List (String × SeriesEntry)) (evs : List SonarrEvent) :
    sonarrMergeAll qbOnly qbHashes (sonarrMergeAll qbOnly qbHashes cat evs) evs =
      sonarrMergeAll qbOnly qbHashes cat evs := by
  exact sonarrMergeAll_of_absorbed qbOnly qbHashes _ evs
    (fun it hmem hp => sonarrMergeAll_absorbs qbOnly qbHashes cat evs it hmem hp)

end BuildCatalog

namespace RelocatedTorrent

theorem applyOne_hash (api : ApiBehavior) (a : RAction) :
    (applyOne api a).1.hash = a.hash := by
  simp only [applyOne]
  split_ifs <;> rfl

end RelocatedTorrent

namespace RadarrImport

theorem dedup_hash_fresh (ms : List MatchedPre) (seen : List String) :
    ∀ r ∈ dedup seen ms, r.hash ∉ seen ∧ r.hash ≠ "" := by
  induction ms generalizing seen with
  | nil => intro r hr; simp [dedup] at hr
  | cons m rest ih =>
    intro r hr
    by_cases hc : hOf m = "" ∨ hOf m ∈ seen
    · rw [dedup, if_pos hc] at hr
      exact ih seen r hr
    · rw [dedup, if_neg hc] at hr
      push_neg at hc
      rcases List.mem_cons.mp hr with rfl | hr'
      · exact ⟨hc.2, hc.1⟩
      · have := ih (hOf m :: seen) r hr'
        refine ⟨fun hmem => this.1 (List.mem_cons_of_mem _ hmem), this.2⟩

theorem dedup_filter_eq (ms : List MatchedPre) (seen : List String) (h : String)
    (hne : h ≠ "") (hs : h ∉ seen) (m₀ : MatchedPre)
    (hfind : ms.find? (fun m => hOf m == h) = some m₀) :
    (dedup seen ms).filter (fun r => r.hash == h) = [recordOf m₀] := by
  induction ms generalizing seen with
  | nil => simp [List.find?] at hfind
  | cons m rest ih =>
    by_cases hm : hOf m = h
    · have hfm : m₀ = m := by
        rw [List.find?_cons_of_pos _ (by simpa using hm), Option.some_inj] at hfind
        exact hfind.symm
      rw [hfm]
      have hcond : ¬(hOf m = "" ∨ hOf m ∈ seen) := by
        rw [hm]
        push_neg
        exact ⟨hne, hs⟩
      rw [dedup, if_neg hcond]
      have hrec : (recordOf m).hash = h := by simp [recordOf, hm]
      rw [List.filter_cons_of_pos (by simpa using hrec)]
      have htail : (dedup (hOf m :: seen) rest).filter (fun r => r.hash == h) = [] := by
        rw [List.filter_eq_nil_iff]
        intro r hr
        have := (dedup_hash_fresh rest (hOf m :: seen) r hr).1
        simp only [hm] at this
        simp only [beq_iff_eq]
        intro hcontra
        exact this (hcontra ▸ List.mem_cons_self h seen)
      rw [htail]
    · have hfind' : rest.find? (fun m => hOf m == h) = some m₀ := by
        rwa [List.find?_cons_of_neg _ (by simpa using hm)] at hfind
      by_cases hc : hOf m = "" ∨ hOf m ∈ seen
      · rw [dedup, if_pos hc]
        exact ih seen hs hfind'
      · rw [dedup, if_neg hc]
        have hrec : ¬((recordOf m).hash == h) = true := by
          simp [recordOf, hm]
        rw [List.filter_cons_of_neg (by simpa using hrec)]
        refine ih (hOf m :: seen) ?_ hfind'
        intro hmem
        rcases List.mem_cons.mp hmem with heq | hmem'
        · exact hm heq.symm
        · exact hs hmem'

theorem tier1_reason (folder : Option String) (torrents : List MTorrent)
    (m : MatchedPre) (hm : m ∈ tier1 folder torrents) : m.reason = "save_path" := by
  simp only [tier1] at hm
  split_ifs at hm with hf
  · obtain ⟨t, _, rfl⟩ := List.mem_map.mp hm
    rfl
  · simp at hm

theorem tier1_mem (folder : Option String) (torrents : List MTorrent)
    (t : MTorrent) (hf : Py.truthyS folder = true) (ht : t ∈ torrents)
    (hsp : (spOf t == folder) = true) :
    ({ torrent := t, reason := "save_path" } : MatchedPre) ∈ tier1 folder torrents := by
  simp only [tier1, if_pos hf]
  exact List.mem_map.mpr ⟨t, List.mem_filter.mpr ⟨ht, hsp⟩, rfl⟩

end RadarrImport

/-!
## Claims

One theorem per claim of the specification audit, stated over the
embedded definitions above.
-/

/-- C1: for every plan built by the restore planner, when the apply
flag is not given (dry-run default) the run issues zero API calls — in
particular no set-location and no recheck — writes no results document,
exits 0, and when the action list is non-empty writes only the plan
file. -/
theorem claim_C1_dry_run_no_mutating_calls
    (args : Args) (input_map : List (String × Mapping))
    (all_torrents : List RelocatedTorrent.QTorrent) (api : ApiBehavior)
    (hdry : args.apply = false) :
    (run args input_map all_torrents api).calls = [] ∧
    (run args input_map all_torrents api).results = none ∧
    (run args input_map all_torrents api).exit = 0 ∧
    (buildActions input_map (selectTorrents args.tag all_torrents) ≠ [] →
      (run args input_map all_torrents api).plan =
        some (planOf (buildActions input_map (selectTorrents args.tag all_torrents)))) := by
  simp only [run, hdry, Bool.not_false]
  by_cases hact : buildActions input_map (selectTorrents args.tag all_torrents) = []
  · simp [hact]
  · simp [hact]

/-- Witness for C1 at a concrete dry run with one mapped torrent. -/
theorem claim_C1_witness :
    exArgsDry.apply = false ∧
    (run exArgsDry exMap [exTorrent] exApiFailSet).calls = [] ∧
    (run exArgsDry exMap [exTorrent] exApiFailSet).results = none ∧
    (run exArgsDry exMap [exTorrent] exApiFailSet).exit = 0 ∧
    (buildActions exMap (selectTorrents exArgsDry.tag [exTorrent]) ≠ [] →
      (run exArgsDry exMap [exTorrent] exApiFailSet).plan =
        some (planOf (buildActions exMap (selectTorrents exArgsDry.tag [exTorrent])))) :=
  ⟨rfl, claim_C1_dry_run_no_mutating_calls exArgsDry exMap [exTorrent] exApiFailSet rfl⟩

/-- C6 counterexample: in an apply run where the only action's
set-location call fails, the failure is recorded in the results but the
run's exit status is 0 — contradicting "exit status is non-zero iff at
least one action failed". -/
theorem claim_C6_counterexample :
    (run exArgsApply exMap [exTorrent] exApiFailSet).results =
      some [{ hash := "ABC123", name := some "T", ok_setLocation := false,
              ok_recheck := false, state_after := none, notes := ["setLocation failed"] }] ∧
    (run exArgsApply exMap [exTorrent] exApiFailSet).exit = 0 := by
  constructor <;> rfl

/-- C6 (amended): in an apply run that passes the confirmation gate
with a non-empty action list, every action contributes exactly one
result row (in order, with its hash), and the exit status is always 0,
whether or not any action failed. -/
theorem claim_C6_results_recorded_exit_zero
    (args : Args) (input_map : List (String × Mapping))
    (all_torrents : List RelocatedTorrent.QTorrent) (api : ApiBehavior)
    (happly : args.apply = true)
    (hgate : args.yes = true ∨
      (args.stdin_tty = true ∧ Py.lower (Py.strip args.confirm_ans) ∈ ["y", "yes", "o", "oui"]))
    (hact : buildActions input_map (selectTorrents args.tag all_torrents) ≠ []) :
    (run args input_map all_torrents api).results =
      some ((buildActions input_map (selectTorrents args.tag all_torrents)).map
        (fun a => (applyOne api a).1)) ∧
    ((buildActions input_map (selectTorrents args.tag all_torrents)).map
        (fun a => (applyOne api a).1)).map (fun r => r.hash) =
      (buildActions input_map (selectTorrents args.tag all_torrents)).map (fun a => a.hash) ∧
    (run args input_map all_torrents api).exit = 0 := by
  refine ⟨?_, ?_, ?_⟩
  · simp only [run, happly, Bool.not_true]
    rcases hgate with hyes | ⟨htty, hans⟩
    · simp [hact, hyes]
    · simp [hact, htty, hans]
  · rw [List.map_map]
    exact List.map_congr_left (fun a _ => applyOne_hash api a)
  · simp only [run, happly, Bool.not_true]
    rcases hgate with hyes | ⟨htty, hans⟩
    · simp [hact, hyes]
    · simp [hact, htty, hans]

/-- Witness for C6 (amended) at a concrete successful apply run. -/
theorem claim_C6_witness :
    exArgsApply.apply = true ∧ exArgsApply.yes = true ∧
    buildActions exMap (selectTorrents exArgsApply.tag [exTorrent]) ≠ [] ∧
    ((run exArgsApply exMap [exTorrent] exApiOk).results =
      some ((buildActions exMap (selectTorrents exArgsApply.tag [exTorrent])).map
        (fun a => (applyOne exApiOk a).1)) ∧
    ((buildActions exMap (selectTorrents exArgsApply.tag [exTorrent])).map
        (fun a => (applyOne exApiOk a).1)).map (fun r => r.hash) =
      (buildActions exMap (selectTorrents exArgsApply.tag [exTorrent])).map (fun a => a.hash) ∧
    (run exArgsApply exMap [exTorrent] exApiOk).exit = 0) :=
  ⟨rfl, rfl, by decide,
    claim_C6_results_recorded_exit_zero exArgsApply exMap [exTorrent] exApiOk rfl
      (Or.inl rfl) (by decide)⟩

/-- C10: in an apply run, an action whose mapping yields no target
folder is recorded in the results with the diagnostic note, issues no
API call at all for that torrent, and every other action is still
processed (the results document has one row per action). -/
theorem claim_C10_no_target_action
    (args : Args) (input_map : List (String × Mapping))
    (all_torrents : List RelocatedTorrent.QTorrent) (api : ApiBehavior) (a : RAction)
    (happly : args.apply = true)
    (hgate : args.yes = true ∨
      (args.stdin_tty = true ∧ Py.lower (Py.strip args.confirm_ans) ∈ ["y", "yes", "o", "oui"]))
    (hmem : a ∈ buildActions input_map (selectTorrents args.tag all_torrents))
    (htf : Py.truthyS a.target_folder = false) :
    (applyOne api a) =
      ({ hash := a.hash, name := a.name, ok_setLocation := false, ok_recheck := false,
         state_after := none, notes := ["no target_folder in mapping"] }, []) ∧
    (run args input_map all_torrents api).results =
      some ((buildActions input_map (selectTorrents args.tag all_torrents)).map
        (fun x => (applyOne api x).1)) ∧
    (applyOne api a).1 ∈
      ((buildActions input_map (selectTorrents args.tag all_torrents)).map
        (fun x => (applyOne api x).1)) := by
  have hone : (applyOne api a) =
      ({ hash := a.hash, name := a.name, ok_setLocation := false, ok_recheck := false,
         state_after := none, notes := ["no target_folder in mapping"] }, []) := by
    simp only [applyOne]
    rw [if_pos (by simp [htf])]
  refine ⟨hone, ?_, List.mem_map.mpr ⟨a, hmem, rfl⟩⟩
  have hact : buildActions input_map (selectTorrents args.tag all_torrents) ≠ [] :=
    List.ne_nil_of_mem hmem
  simp only [run, happly, Bool.not_true]
  rcases hgate with hyes | ⟨htty, hans⟩
  · simp [hact, hyes]
  · simp [hact, htty, hans]

/-- Witness for C10: a mixed run where one mapped torrent has no
usable target folder and another does; the no-target action is recorded
with the note, gets no calls, and the other is still applied. -/
theorem claim_C10_witness :
    (∃ a, a ∈ buildActions exMapMixed
        (selectTorrents exArgsApply.tag [exTorrentNoTarget, exTorrent]) ∧
      Py.truthyS a.target_folder = false ∧
      (applyOne exApiOk a) =
        ({ hash := a.hash, name := a.name, ok_setLocation := false, ok_recheck := false,
           state_after := none, notes := ["no target_folder in mapping"] }, []) ∧
      (run exArgsApply exMapMixed [exTorrentNoTarget, exTorrent] exApiOk).results =
        some ((buildActions exMapMixed
          (selectTorrents exArgsApply.tag [exTorrentNoTarget, exTorrent])).map
            (fun x => (applyOne exApiOk x).1))) := by
  refine ⟨exActionNoTarget, ?_, ?_, ?_, ?_⟩
  · decide
  · decide
  · exact (claim_C10_no_target_action exArgsApply exMapMixed
      [exTorrentNoTarget, exTorrent] exApiOk exActionNoTarget rfl (Or.inl rfl)
      (by decide) (by decide)).1
  · exact (claim_C10_no_target_action exArgsApply exMapMixed
      [exTorrentNoTarget, exTorrent] exApiOk exActionNoTarget rfl (Or.inl rfl)
      (by decide) (by decide)).2.1

/-- C2: merging the identical history-event batch into the catalog a
second time leaves the catalog identical to the result of the first
merge (the build-time metadata block is outside the merged namespaces),
for both the Radarr (movie) and the Sonarr (series/episode)
namespaces. -/
theorem claim_C2_merge_idempotent :
    (∀ (qbOnly : Bool) (qbHashes : List String) (cat : List (String × Entry))
      (evs : List RadarrEvent),
      radarrMergeAll qbOnly qbHashes (radarrMergeAll qbOnly qbHashes cat evs) evs =
        radarrMergeAll qbOnly qbHashes cat evs) ∧
    (∀ (qbOnly : Bool) (qbHashes : List String) (cat : List (String × SeriesEntry))
      (evs : List SonarrEvent),
      sonarrMergeAll qbOnly qbHashes (sonarrMergeAll qbOnly qbHashes cat evs) evs =
        sonarrMergeAll qbOnly qbHashes cat evs) :=
  ⟨radarrMergeAll_idem, sonarrMergeAll_idem⟩

/-- C3 (code bug): the claim says a non-429 4xx fails immediately with
no retry, but `raise_for_status`'s `HTTPError` is a
`RequestException` and is caught by the loop's own handler: a constant
404 is retried through the whole budget and ends in the generic
exhaustion error, and a 404 followed by a 200 *succeeds on the second
attempt* — the page is retried.  (429, network errors and non-JSON
bodies behave as specified.) -/
theorem claim_C3_4xx_retried_not_fatal :
    request_with_retry (fun _ => HResp.httpStatus 404) = FetchOutcome.exhausted ∧
    request_with_retry (fun n => if n = 0 then HResp.httpStatus 404 else HResp.ok true) =
      FetchOutcome.success 1 ∧
    request_with_retry (fun n => if n < 2 then HResp.httpStatus 429 else HResp.ok true) =
      FetchOutcome.success 2 ∧
    request_with_retry (fun _ => HResp.netErr) = FetchOutcome.exhausted ∧
    request_with_retry (fun _ => HResp.ok false) = FetchOutcome.fatalNonJson 0 :=
  ⟨rfl, rfl, rfl, rfl, rfl⟩

/-- C4 counterexample: the merge helpers store the hash lowercased
(`.lower().strip()`), not uppercased: merging `AbC` stores `abc`, and
the claimed uppercase form `ABC` is not what is stored. -/
theorem claim_C4_counterexample :
    (merge_movie emptyEntry (some "AbC") 1 none none).candidates = some ["abc"] ∧
    (merge_movie emptyEntry (some "AbC") 1 none none).latest = some (some "abc") ∧
    (merge_episode emptyEntry (some "AbC") 1 none none none).candidates = some ["abc"] ∧
    ("abc" : String) ≠ "ABC" := by decide

/-- C4 (amended): for every hash merged into the catalog, the stored
candidate (and, when the event advances the watermark, the stored
latest hash) is the case-normalised *lowercase*, whitespace-stripped
form of the input hash, in both merge helpers. -/
theorem claim_C4_lowercase_normalisation
    (e : Entry) (h : Option String) (dt : Int) (t : Option String) (y : Option Int)
    (sn en : Option Int) (hcur : normH h ≠ "") :
    normH h ∈ candList (merge_movie e h dt t y) ∧
    normH h ∈ candList (merge_episode e h dt t sn en) ∧
    normH h = Py.strip (Py.lower (h.getD "")) ∧
    (dt > maxRead e → latestVal (merge_movie e h dt t y) = some (normH h)) ∧
    (dt > maxRead e → latestVal (merge_episode e h dt t sn en) = some (normH h)) := by
  refine ⟨merge_movie_cand_self e h dt t y hcur,
    merge_episode_cand_self e h dt t sn en hcur, rfl, ?_, ?_⟩
  · intro hd
    rw [merge_movie_latest_update e h dt t y hd, if_pos hcur]
  · intro hd
    rw [merge_episode_latest_update e h dt t sn en hd, if_pos hcur]

/-- Witness for C4 (amended) with the mixed-case hash `AbC`. -/
theorem claim_C4_witness :
    normH (some "AbC") ≠ "" ∧
    normH (some "AbC") ∈ candList (merge_movie emptyEntry (some "AbC") 1 none none) ∧
    normH (some "AbC") ∈ candList (merge_episode emptyEntry (some "AbC") 1 none none none) ∧
    normH (some "AbC") = Py.strip (Py.lower "AbC") ∧
    (1 > maxRead emptyEntry →
      latestVal (merge_movie emptyEntry (some "AbC") 1 none none) = some (normH (some "AbC"))) ∧
    (1 > maxRead emptyEntry →
      latestVal (merge_episode emptyEntry (some "AbC") 1 none none none) = some (normH (some "AbC"))) :=
  ⟨by decide, claim_C4_lowercase_normalisation emptyEntry (some "AbC") 1 none none none none (by decide)⟩

/-- C5 counterexample: an event with an *empty* hash and a newer
timestamp advances `max_event_at` but leaves `latest` at its previous
value (`latest = cur or entry["latest"]`): the two fields are not
updated together, and `latest` does not become the event's (empty)
hash as the claim requires. -/
theorem claim_C5_counterexample :
    (merge_movie exEntryAaa (some "") 5 none none).max_event_at = some 5 ∧
    (merge_movie exEntryAaa (some "") 5 none none).latest = some (some "aaa") ∧
    ¬ (merge_movie exEntryAaa (some "") 5 none none).latest = some (some "") := by
  decide

/-- C5 (amended): if the event's timestamp strictly exceeds the stored
watermark, then after the merge the watermark equals that timestamp,
and `latest` equals the event's normalised hash *when that hash is
non-empty*; an empty hash leaves `latest` at its previous value.  Both
merge helpers behave this way. -/
theorem claim_C5_latest_update
    (e : Entry) (h : Option String) (dt : Int) (t : Option String) (y : Option Int)
    (sn en : Option Int) (hd : dt > maxRead e) :
    (merge_movie e h dt t y).max_event_at = some dt ∧
    latestVal (merge_movie e h dt t y) =
      (if normH h ≠ "" then some (normH h) else latestVal e) ∧
    (merge_episode e h dt t sn en).max_event_at = some dt ∧
    latestVal (merge_episode e h dt t sn en) =
      (if normH h ≠ "" then some (normH h) else latestVal e) :=
  ⟨merge_movie_max_update e h dt t y hd, merge_movie_latest_update e h dt t y hd,
    merge_episode_max_update e h dt t sn en hd, merge_episode_latest_update e h dt t sn en hd⟩

/-- Witness for C5 (amended): a non-empty hash at a newer timestamp
updates both fields together. -/
theorem claim_C5_witness :
    (5 : Int) > maxRead exEntryAaa ∧
    ((merge_movie exEntryAaa (some "BbB") 5 none none).max_event_at = some 5 ∧
    latestVal (merge_movie exEntryAaa (some "BbB") 5 none none) =
      (if normH (some "BbB") ≠ "" then some (normH (some "BbB")) else latestVal exEntryAaa) ∧
    (merge_episode exEntryAaa (some "BbB") 5 none none none).max_event_at = some 5 ∧
    latestVal (merge_episode exEntryAaa (some "BbB") 5 none none none) =
      (if normH (some "BbB") ≠ "" then some (normH (some "BbB")) else latestVal exEntryAaa)) :=
  ⟨by decide, claim_C5_latest_update exEntryAaa (some "BbB") 5 none none none none (by decide)⟩

/-- C7 counterexample: merging the same two events in the two orders
does *not* yield the same entry — the candidates list records insertion
order (`["aaa","bbb"]` vs `["bbb","aaa"]`) — and in the claim's own
scenario the final latest hash is the lowercase `"bbb"`, not `"BBB"`. -/
theorem claim_C7_counterexample :
    merge_movie (merge_movie emptyEntry (some "AAA") 1 none none) (some "BBB") 5 none none ≠
      merge_movie (merge_movie emptyEntry (some "BBB") 5 none none) (some "AAA") 1 none none ∧
    (merge_movie (merge_movie emptyEntry (some "AAA") 1 none none) (some "BBB") 5 none none).candidates =
      some ["aaa", "bbb"] ∧
    (merge_movie (merge_movie emptyEntry (some "BBB") 5 none none) (some "AAA") 1 none none).candidates =
      some ["bbb", "aaa"] ∧
    (merge_movie (merge_movie emptyEntry (some "AAA") 1 none none) (some "BBB") 5 none none).latest =
      some (some "bbb") ∧
    ¬ (merge_movie (merge_movie emptyEntry (some "AAA") 1 none none) (some "BBB") 5 none none).latest =
      some (some "BBB") := by
  refine ⟨?_, by decide, by decide, by decide, by decide⟩
  decide

/-- C7 (amended): merge order is invisible to the candidate *set* and
the watermark — merging two events in either order yields the same
membership of `candidates` and the same `max_event_at` read — but the
candidates *list* keeps insertion order; in the claim's scenario
(hash `AAA` at `t=1`, `BBB` at `t=5`, fresh entry, either order) both
orders give latest `"bbb"` (lowercased) and candidate set
`{"aaa","bbb"}`. -/
theorem claim_C7_order_insensitive_up_to_candidate_order :
    (∀ (e : Entry) (h1 : Option String) (dt1 : Int) (t1 : Option String) (y1 : Option Int)
      (h2 : Option String) (dt2 : Int) (t2 : Option String) (y2 : Option Int),
      (∀ x, x ∈ candList (merge_movie (merge_movie e h1 dt1 t1 y1) h2 dt2 t2 y2) ↔
        x ∈ candList (merge_movie (merge_movie e h2 dt2 t2 y2) h1 dt1 t1 y1)) ∧
      maxRead (merge_movie (merge_movie e h1 dt1 t1 y1) h2 dt2 t2 y2) =
        maxRead (merge_movie (merge_movie e h2 dt2 t2 y2) h1 dt1 t1 y1)) ∧
    ((merge_movie (merge_movie emptyEntry (some "AAA") 1 none none) (some "BBB") 5 none none).latest =
      some (some "bbb") ∧
    (merge_movie (merge_movie emptyEntry (some "BBB") 5 none none) (some "AAA") 1 none none).latest =
      some (some "bbb") ∧
    (∀ x, x ∈ candList (merge_movie (merge_movie emptyEntry (some "AAA") 1 none none) (some "BBB") 5 none none) ↔
      x = "aaa" ∨ x = "bbb") ∧
    (∀ x, x ∈ candList (merge_movie (merge_movie emptyEntry (some "BBB") 5 none none) (some "AAA") 1 none none) ↔
      x = "aaa" ∨ x = "bbb")) := by
  refine ⟨fun e h1 dt1 t1 y1 h2 dt2 t2 y2 => ⟨fun x => ?_, ?_⟩, by decide, by decide, ?_, ?_⟩
  · rw [merge_movie_mem_cand, merge_movie_mem_cand, merge_movie_mem_cand, merge_movie_mem_cand]
    tauto
  · rw [merge_movie_maxRead_eq, merge_movie_maxRead_eq, merge_movie_maxRead_eq,
      merge_movie_maxRead_eq]
    exact sup_right_comm (maxRead e) dt1 dt2
  · intro x
    have hc : candList (merge_movie (merge_movie emptyEntry (some "AAA") 1 none none)
        (some "BBB") 5 none none) = ["aaa", "bbb"] := by decide
    rw [hc]
    simp
  · intro x
    have hc : candList (merge_movie (merge_movie emptyEntry (some "BBB") 5 none none)
        (some "AAA") 1 none none) = ["bbb", "aaa"] := by decide
    rw [hc]
    simp
    tauto

/-- C8 counterexample: when the resolved target string (the mapping's
folder field) ends in `.mkv` and no imported-file fallback field is
present, the planner does *not* take the target path's own parent
(`/a/b`); it recomputes from the absent fallback fields and the target
becomes `none`. -/
theorem claim_C8_counterexample :
    target_folder exMkvMapping = none ∧
    dirname_of_path (some "/a/b/file.mkv") = some "/a/b" ∧
    ¬ target_folder exMkvMapping = some "/a/b" := by
  decide

/-- C8 (amended): when the resolved target string ends in `.mkv`
(case-insensitively), the planner replaces it with
`dirname_of_path` of the first truthy of the mapping's
`importedFilePath` / `moviefile_path` / `mkv_file` fields — the parent
of the *imported file's* path, not of the resolved string itself; in
particular, a truthy `importedFilePath` yields that file's parent
directory, and when all three fallback fields are falsy the planned
target is `none` (the action is later recorded as having no target
folder). -/
theorem claim_C8_mkv_target_replacement (m : Mapping)
    (h1 : Py.truthyS (Py.firstTruthyO [m.folder, m.folderCap,
      dirname_of_path (Py.firstTruthyO
        [m.importedFilePath, m.moviefile_path, m.movieFile, m.mkv_file])]) = true)
    (h2 : Py.endsWithS (Py.lower ((Py.firstTruthyO [m.folder, m.folderCap,
      dirname_of_path (Py.firstTruthyO
        [m.importedFilePath, m.moviefile_path, m.movieFile, m.mkv_file])]).getD "")) ".mkv" = true) :
    target_folder m =
      dirname_of_path (Py.firstTruthyO [m.importedFilePath, m.moviefile_path, m.mkv_file]) ∧
    (∀ p, m.importedFilePath = some p → p ≠ "" →
      target_folder m = some (PyPath.parentStr p)) ∧
    (Py.truthyS m.importedFilePath = false → Py.truthyS m.moviefile_path = false →
      Py.truthyS m.mkv_file = false → target_folder m = none) := by
  have hmain : target_folder m =
      dirname_of_path (Py.firstTruthyO [m.importedFilePath, m.moviefile_path, m.mkv_file]) := by
    simp only [target_folder]
    rw [if_pos ⟨h1, h2⟩]
  refine ⟨hmain, ?_, ?_⟩
  · intro p hp hpne
    rw [hmain, hp]
    have htr : Py.truthyS (some p) = true := by simp [Py.truthyS, hpne]
    simp only [Py.firstTruthyO, htr, if_pos]
    simp [dirname_of_path, htr]
  · intro hi hm hk
    rw [hmain]
    simp only [Py.firstTruthyO, hi, hm]
    simp [dirname_of_path, hk]

/-- Witness for C8 (amended): a `.mkv` folder field with an
imported-file fallback resolves to the imported file's parent
directory. -/
theorem claim_C8_witness :
    Py.truthyS (Py.firstTruthyO [exC8Mapping.folder, exC8Mapping.folderCap,
      dirname_of_path (Py.firstTruthyO [exC8Mapping.importedFilePath,
        exC8Mapping.moviefile_path, exC8Mapping.movieFile, exC8Mapping.mkv_file])]) = true ∧
    Py.endsWithS (Py.lower ((Py.firstTruthyO [exC8Mapping.folder, exC8Mapping.folderCap,
      dirname_of_path (Py.firstTruthyO [exC8Mapping.importedFilePath,
        exC8Mapping.moviefile_path, exC8Mapping.movieFile, exC8Mapping.mkv_file])]).getD ""))
      ".mkv" = true ∧
    target_folder exC8Mapping = some "/data/Movies/M" := by
  refine ⟨by decide, by decide, ?_⟩
  have := (claim_C8_mkv_target_replacement exC8Mapping (by decide) (by decide)).2.1
    "/data/Movies/M/file.mkv" rfl (by decide)
  rw [this]
  decide

/-- C9: when a torrent's (normalised) save path equals the movie's
folder *and* its name also contains the movie filename, the
deduplicated matcher output reports the torrent's (uppercased,
non-empty) hash exactly once, and the reported reason is `save_path` —
the cheapest matching tier's reason wins. -/
theorem claim_C9_save_path_reason_wins
    (folder : Option String) (mkv_files : List String) (torrents : List MTorrent)
    (t : MTorrent) (fn : String) (fns : List String)
    (hf : Py.truthyS folder = true)
    (ht : t ∈ torrents)
    (hsp : (spOf t == folder) = true)
    (hmkv : mkv_files = fn :: fns)
    (hname : Py.containsSub (Py.lower (t.name.getD "")) (Py.lower fn) = true)
    (hh : Py.upper (t.hash.getD "") ≠ "") :
    ((matched_torrents folder mkv_files torrents).filter
        (fun r => r.hash == Py.upper (t.hash.getD ""))).length = 1 ∧
    (∀ r ∈ matched_torrents folder mkv_files torrents,
      r.hash = Py.upper (t.hash.getD "") → r.matched_by = "save_path") := by
  have hm1 : ({ torrent := t, reason := "save_path" } : MatchedPre) ∈ tier1 folder torrents :=
    tier1_mem folder torrents t hf ht hsp
  have hsome : ((tier1 folder torrents).find? (fun m => hOf m == Py.upper (t.hash.getD ""))).isSome := by
    rw [List.find?_isSome]
    exact ⟨_, hm1, by simp [hOf]⟩
  obtain ⟨m₀, hm₀⟩ := Option.isSome_iff_exists.mp hsome
  have hfind : (matchedFor folder mkv_files torrents).find?
      (fun m => hOf m == Py.upper (t.hash.getD "")) = some m₀ := by
    rw [matchedFor.eq_def, hmkv]
    simp only
    rw [List.find?_append, hm₀]
    rfl
  have hfilter := dedup_filter_eq (matchedFor folder mkv_files torrents) [] _
    hh (List.not_mem_nil _) m₀ hfind
  have hm₀mem : m₀ ∈ tier1 folder torrents := List.mem_of_find?_eq_some hm₀
  have hm₀hash : hOf m₀ = Py.upper (t.hash.getD "") := by
    have := List.find?_some hm₀
    simpa using this
  constructor
  · rw [matched_torrents, hfilter]
    rfl
  · intro r hr hrh
    have hrf : r ∈ (dedup [] (matchedFor folder mkv_files torrents)).filter
        (fun r => r.hash == Py.upper (t.hash.getD "")) :=
      List.mem_filter.mpr ⟨hr, by simpa using hrh⟩
    rw [matched_torrents] at hr
    rw [hfilter] at hrf
    have hreq : r = recordOf m₀ := List.mem_singleton.mp hrf
    rw [hreq]
    show m₀.reason = "save_path"
    exact tier1_reason folder torrents m₀ hm₀mem

/-- Witness for C9: a torrent matching one movie both by save path and
by filename is reported once, with reason `save_path`. -/
theorem claim_C9_witness :
    Py.truthyS (some "/data/Movies/Foo (2020)") = true ∧
    exMatchTorrent ∈ [exMatchTorrent] ∧
    (spOf exMatchTorrent == some "/data/Movies/Foo (2020)") = true ∧
    Py.containsSub (Py.lower (exMatchTorrent.name.getD "")) (Py.lower "Foo (2020).mkv") = true ∧
    Py.upper (exMatchTorrent.hash.getD "") ≠ "" ∧
    (((matched_torrents (some "/data/Movies/Foo (2020)") ["Foo (2020).mkv"] [exMatchTorrent]).filter
        (fun r => r.hash == Py.upper (exMatchTorrent.hash.getD ""))).length = 1 ∧
    (∀ r ∈ matched_torrents (some "/data/Movies/Foo (2020)") ["Foo (2020).mkv"] [exMatchTorrent],
      r.hash = Py.upper (exMatchTorrent.hash.getD "") → r.matched_by = "save_path")) :=
  ⟨by decide, by decide, by decide, by decide, by decide,
    claim_C9_save_path_reason_wins (some "/data/Movies/Foo (2020)") ["Foo (2020).mkv"]
      [exMatchTorrent] exMatchTorrent "Foo (2020).mkv" [] (by decide) (by decide)
      (by decide) rfl (by decide) (by decide)⟩

